import Mathlib

/-!
Shallow embedding of the CPUID snapshot store (`CpuIdDump` in `src/dump.rs`)
and the extended-topology sequence decoder (`src/lib.rs`), with theorems
checking the specification's claims about them.

Machine integers (`u32`) are modelled as `Nat`; every bitwise operation the
source performs on `u32` (`&`, `|`, `!`) is rendered with explicit 32-bit
masking where the source's type forces truncation.  `HashMap` is modelled as
an association list: lookup finds the first binding, insertion replaces an
existing binding in place or appends, removal filters the key out, and
"first key" (`keys().next()`) is the list head; all map-order-sensitive
statements are made only up to permutation, matching the source's
"unspecified order" contract.  A Rust `panic!` / failed `assert!` /
`unreachable!` is modelled by returning `none`; the source's straight-line
suffix after a `match` (insert/remove, then the bookkeeping pass) is inlined
into each non-panicking arm.
-/

/-- Four 32-bit CPUID result registers (`CpuIdResult` in `src/lib.rs`). -/
structure CpuIdResult where
  eax : Nat
  ebx : Nat
  ecx : Nat
  edx : Nat
deriving DecidableEq, Repr

/-- Modelled from the spec: `CpuIdResult::empty()` is called by
`update_max_leaves` but its declaration is not under `src/`; the spec says the
synthesized leaf is created "as a `Scalar` with all-zero other fields", so
`empty` is the all-zero quad. -/
def CpuIdResult.empty : CpuIdResult := ⟨0, 0, 0, 0⟩

/-- `LeafOrSubleaves` from `src/dump.rs`: a leaf entry is either a single
scalar quad or a table of subleaf → quad. -/
inductive LeafOrSubleaves where
  | Leaf : CpuIdResult → LeafOrSubleaves
  | Subleaf : List (Nat × CpuIdResult) → LeafOrSubleaves
deriving DecidableEq, Repr

/-- `CpuIdDump` from `src/dump.rs`: a map leaf → entry. -/
structure CpuIdDump where
  leaves : List (Nat × LeafOrSubleaves)
deriving DecidableEq, Repr

/-- `CpuIdDump::new()`. -/
def CpuIdDump.new : CpuIdDump := ⟨[]⟩

/-- `HashMap::get`: first binding with the given key. -/
def mapFind? {α : Type} : List (Nat × α) → Nat → Option α
  | [], _ => none
  | (k, v) :: rest, key => if k = key then some v else mapFind? rest key

/-- `HashMap::insert`: replace the value at an existing key in place,
otherwise append the new binding. -/
def mapInsert {α : Type} : List (Nat × α) → Nat → α → List (Nat × α)
  | [], key, v => [(key, v)]
  | (k, w) :: rest, key, v =>
      if k = key then (key, v) :: rest else (k, w) :: mapInsert rest key v

/-- `HashMap::remove`: drop the bindings with the given key. -/
def mapErase {α : Type} : List (Nat × α) → Nat → List (Nat × α)
  | [], _ => []
  | (k, v) :: rest, key =>
      if k = key then mapErase rest key else (k, v) :: mapErase rest key

/-- `HashMap::keys`. -/
def mapKeys {α : Type} (m : List (Nat × α)) : List Nat := m.map (·.1)

/-- `DEFAULT_LEAF` from `src/dump.rs`: the all-zero fallback quad. -/
def DEFAULT_LEAF : CpuIdResult := ⟨0, 0, 0, 0⟩

/-- The mirror mask `0b0000_0001_1000_0011_1111_0011_1111_1111` from
`CpuIdDump::set_leaf` (bits of leaf 1h edx mirrored into leaf 8000_0001h). -/
def MIRROR_MASK : Nat := 0x0183F3FF

/-- Rust `!x` on `u32`: bitwise complement within 32 bits. -/
def not32 (x : Nat) : Nat := 0xFFFFFFFF ^^^ x

/-- The accumulator step of the max-scan in `update_max_leaves`:
`Some(match prev { None => k, Some(prev) => max(k, prev) })`. -/
def bumpMax (a : Option Nat) (k : Nat) : Option Nat :=
  match a with
  | none => some k
  | some prev => some (max k prev)

/-- One iteration of the key loop in `CpuIdDump::update_max_leaves`: bump the
accumulator of the namespace the key falls in (standard / hypervisor /
extended), ignoring keys at or above `0xc000_0000`. -/
def scanStep (acc : Option Nat × Option Nat × Option Nat) (k : Nat) :
    Option Nat × Option Nat × Option Nat :=
  let (s, h, e) := acc
  if k < 0x40000000 then (bumpMax s k, h, e)
  else if k < 0x80000000 then (s, bumpMax h k, e)
  else if k < 0xc0000000 then (s, h, bumpMax e k)
  else acc

/-- The single pass over the keys in `CpuIdDump::update_max_leaves`
accumulating `(max_standard, max_hv, max_extended)`. -/
def scanMaxes (ks : List Nat) : Option Nat × Option Nat × Option Nat :=
  ks.foldl scanStep (none, none, none)

/-- One `if let Some(eax) = ... { match self.leaves.entry(key).or_insert(...) }`
block of `update_max_leaves`: write the recomputed maximum into the `eax` of
the synthesized leaf at `key`, creating it as an all-zero scalar first if
absent; `none` models the `panic!` when the leaf has subleaves. -/
def applyMax (m : List (Nat × LeafOrSubleaves)) (key : Nat) :
    Option Nat → Option (List (Nat × LeafOrSubleaves))
  | none => some m
  | some eaxv =>
      match mapFind? m key with
      | some (.Leaf l) => some (mapInsert m key (.Leaf { l with eax := eaxv }))
      | some (.Subleaf _) => none
      | none => some (mapInsert m key (.Leaf { CpuIdResult.empty with eax := eaxv }))

/-- `CpuIdDump::update_max_leaves` (`src/dump.rs:170`). -/
def update_max_leaves (d : CpuIdDump) : Option CpuIdDump :=
  let t := scanMaxes (mapKeys d.leaves)
  (applyMax d.leaves 0x0 t.1).bind fun m1 =>
    (applyMax m1 0x40000000 t.2.1).bind fun m2 =>
      (applyMax m2 0x80000000 t.2.2).map fun m3 => ⟨m3⟩

/-- `CpuIdWriter::set_leaf` for `CpuIdDump` (`src/dump.rs:97`): the mirror
fix-up between leaves 1h and 8000_0001h, then insert/remove, then the
bookkeeping pass.  `none` models a `panic!` on any path. -/
def set_leaf (d : CpuIdDump) (leaf : Nat) (bits : Option CpuIdResult) :
    Option CpuIdDump :=
  match bits with
  | some b =>
      if leaf = 0x00000001 then
        -- updating leaf 1h: fix up leaf 8000_0001h (if present)
        match mapFind? d.leaves 0x80000001 with
        | some (.Leaf ext) =>
            let ext' := { ext with
              edx := (ext.edx &&& not32 MIRROR_MASK) ||| (b.edx &&& MIRROR_MASK) }
            update_max_leaves
              ⟨mapInsert (mapInsert d.leaves 0x80000001 (.Leaf ext')) leaf (.Leaf b)⟩
        | some (.Subleaf _) => none
        | none => update_max_leaves ⟨mapInsert d.leaves leaf (.Leaf b)⟩
      else if leaf = 0x80000001 then
        -- updating leaf 8000_0001h: shadow leaf 1h's mirrored bits (if present)
        match mapFind? d.leaves 0x00000001 with
        | some (.Leaf prior) =>
            let b' := { b with
              edx := (b.edx &&& not32 MIRROR_MASK) ||| (prior.edx &&& MIRROR_MASK) }
            update_max_leaves ⟨mapInsert d.leaves leaf (.Leaf b')⟩
        | some (.Subleaf _) => none
        | none => update_max_leaves ⟨mapInsert d.leaves leaf (.Leaf b)⟩
      else update_max_leaves ⟨mapInsert d.leaves leaf (.Leaf b)⟩
  | none => update_max_leaves ⟨mapErase d.leaves leaf⟩

/-- `CpuIdWriter::set_subleaf` for `CpuIdDump` (`src/dump.rs:141`). -/
def set_subleaf (d : CpuIdDump) (leaf subleaf : Nat) (bits : Option CpuIdResult) :
    Option CpuIdDump :=
  match bits with
  | some b =>
      -- entry(leaf).or_insert(Subleaf(empty map)) then match on the entry
      match mapFind? d.leaves leaf with
      | some (.Leaf _) => none
      | some (.Subleaf sl) =>
          update_max_leaves
            ⟨mapInsert d.leaves leaf (.Subleaf (mapInsert sl subleaf b))⟩
      | none =>
          update_max_leaves
            ⟨mapInsert d.leaves leaf
              (.Subleaf (mapInsert ([] : List (Nat × CpuIdResult)) subleaf b))⟩
  | none =>
      -- get_mut(leaf).map(...)
      match mapFind? d.leaves leaf with
      | some (.Leaf _) => none
      | some (.Subleaf sl) =>
          update_max_leaves ⟨mapInsert d.leaves leaf (.Subleaf (mapErase sl subleaf))⟩
      | none => update_max_leaves d

/-- `CpuIdReader::cpuid1` for `CpuIdDump` (`src/dump.rs:243`). -/
def cpuid1 (d : CpuIdDump) (leaf : Nat) : CpuIdResult :=
  match mapFind? d.leaves leaf with
  | some (.Leaf res) => res
  | some (.Subleaf sl) => (mapFind? sl 0).getD DEFAULT_LEAF
  | none => DEFAULT_LEAF

/-- `CpuIdReader::cpuid2` for `CpuIdDump` (`src/dump.rs:259`). -/
def cpuid2 (d : CpuIdDump) (leaf subleaf : Nat) : CpuIdResult :=
  match mapFind? d.leaves leaf with
  | some (.Leaf _) => DEFAULT_LEAF
  | some (.Subleaf sl) => (mapFind? sl subleaf).getD DEFAULT_LEAF
  | none => DEFAULT_LEAF

/-- A write operation on the store, for stating invariants over arbitrary
sequences of `set_leaf` / `set_subleaf` calls. -/
inductive DumpOp where
  | scalar (leaf : Nat) (bits : Option CpuIdResult)
  | sub (leaf subleaf : Nat) (bits : Option CpuIdResult)
deriving DecidableEq, Repr

/-- Apply one write operation. -/
def applyOp (d : CpuIdDump) : DumpOp → Option CpuIdDump
  | .scalar leaf bits => set_leaf d leaf bits
  | .sub leaf subleaf bits => set_subleaf d leaf subleaf bits

/-- Apply a sequence of write operations, faulting if any step faults. -/
def applyOps (d : CpuIdDump) (ops : List DumpOp) : Option CpuIdDump :=
  ops.foldlM applyOp d

/-- `CpuIdDumpIter` from `src/dump.rs:31`: the draining iterator state —
the remaining top-level map, the leaf index whose subleaf table is currently
being drained, and that table (if any). -/
structure CpuIdDumpIter where
  dump : List (Nat × LeafOrSubleaves)
  leaf : Nat
  current_subleaf : Option (List (Nat × CpuIdResult))
deriving DecidableEq, Repr

/-- `IntoIterator for CpuIdDump` (`src/dump.rs:42`). -/
def intoIter (d : CpuIdDump) : CpuIdDumpIter := ⟨d.leaves, 0, none⟩

/-- `Iterator::next for CpuIdDumpIter` (`src/dump.rs:55`): drain the current
subleaf table first (first key = list head), otherwise move to the first
remaining leaf; a `Leaf` is yielded directly, a `Subleaf` table becomes the
current table and the loop continues. -/
def iterNext : CpuIdDumpIter → Option ((Nat × Option Nat × CpuIdResult) × CpuIdDumpIter)
  | ⟨dump, leaf, some ((s, q) :: rest)⟩ => some ((leaf, some s, q), ⟨dump, leaf, some rest⟩)
  | ⟨dump, leaf, some []⟩ =>
      -- exhausted this subleaf table, move on
      iterNext ⟨dump, leaf, none⟩
  | ⟨[], _, none⟩ => none
  | ⟨(k, .Leaf q) :: rest, _, none⟩ => some ((k, none, q), ⟨rest, k, none⟩)
  | ⟨(k, .Subleaf sl) :: rest, _, none⟩ => iterNext ⟨rest, k, some sl⟩
termination_by it =>
  2 * it.dump.length + (match it.current_subleaf with | some [] => 1 | _ => 0)
decreasing_by
  all_goals simp
  all_goals (cases sl <;> simp <;> omega)

/-- Weight of one stored entry for the drain-termination measure. -/
def entryWeight : Nat × LeafOrSubleaves → Nat
  | (_, .Leaf _) => 1
  | (_, .Subleaf sl) => sl.length + 1

/-- Run the draining iterator to exhaustion, collecting the yielded triples
(`collect()` on the `IntoIterator` of `CpuIdDump`); the step-by-step
agreement with `iterNext` is proved below (`drainFrom_eq_iterNext`). -/
def drainFrom : CpuIdDumpIter → List (Nat × Option Nat × CpuIdResult)
  | ⟨dump, leaf, some ((s, q) :: rest)⟩ =>
      (leaf, some s, q) :: drainFrom ⟨dump, leaf, some rest⟩
  | ⟨dump, leaf, some []⟩ => drainFrom ⟨dump, leaf, none⟩
  | ⟨[], _, none⟩ => []
  | ⟨(k, .Leaf q) :: rest, _, none⟩ => (k, none, q) :: drainFrom ⟨rest, k, none⟩
  | ⟨(k, .Subleaf sl) :: rest, _, none⟩ => drainFrom ⟨rest, k, some sl⟩
termination_by it =>
  2 * (it.dump.map entryWeight).sum +
    (match it.current_subleaf with | none => 0 | some l => 2 * l.length + 1)
decreasing_by
  all_goals simp [entryWeight]
  all_goals omega

/-- The triples a single stored entry contributes to the drain. -/
def entryTriples : Nat × LeafOrSubleaves → List (Nat × Option Nat × CpuIdResult)
  | (k, .Leaf q) => [(k, none, q)]
  | (k, .Subleaf sl) => sl.map (fun p => (k, some p.1, p.2))

/-- All `(leaf, Option subleaf, quad)` triples stored in a dump. -/
def dumpContents (d : CpuIdDump) : List (Nat × Option Nat × CpuIdResult) :=
  (d.leaves.map entryTriples).flatten

/-- `get_bits` from `src/lib.rs:78`; `none` models a failed `assert!`. -/
def get_bits (r lo hi : Nat) : Option Nat :=
  if lo ≤ 31 ∧ hi ≤ 31 ∧ lo ≤ hi then
    some ((r &&& (if hi = 31 then 0xffffffff else (1 <<< (hi + 1)) - 1)) >>> lo)
  else none

/-- `TopologyType` from `src/lib.rs`. -/
inductive TopologyType where
  | INVALID
  | SMT
  | CORE
deriving DecidableEq, Repr

/-- `ExtendedTopologyLevel` from `src/lib.rs`: the raw registers of one
topology subleaf. -/
structure ExtendedTopologyLevel where
  eax : Nat
  ebx : Nat
  ecx : Nat
  edx : Nat
deriving DecidableEq, Repr

/-- Build an `ExtendedTopologyLevel` from a fetched quad (the struct literal
in `Iterator::next for ExtendedTopologyIter`). -/
def etOf (res : CpuIdResult) : ExtendedTopologyLevel :=
  ⟨res.eax, res.ebx, res.ecx, res.edx⟩

/-- `ExtendedTopologyLevel::level_type` (`src/lib.rs:1514`): decode ecx bits
8–15; `none` models the `unreachable!` on values greater than 2. -/
def level_type (et : ExtendedTopologyLevel) : Option TopologyType :=
  match get_bits et.ecx 8 15 with
  | some 0 => some .INVALID
  | some 1 => some .SMT
  | some 2 => some .CORE
  | _ => none

/-- `EAX_EXTENDED_TOPOLOGY_INFO` from `src/lib.rs`. -/
def EAX_EXTENDED_TOPOLOGY_INFO : Nat := 0xB

/-- `ExtendedTopologyIter` from `src/lib.rs`: the subleaf counter. -/
structure ExtendedTopologyIter where
  level : Nat
deriving DecidableEq, Repr

/-- `Iterator::next for ExtendedTopologyIter` (`src/lib.rs:1544`),
parameterised by the register source the `cpuid!` macro consults.  The outer
`none` models a panic inside `level_type`; `some none` is the iterator
reporting exhaustion; `some (some _)` yields an item. -/
def extTopoNext (reader : Nat → Nat → CpuIdResult) (it : ExtendedTopologyIter) :
    Option (Option (ExtendedTopologyLevel × ExtendedTopologyIter)) :=
  let res := reader EAX_EXTENDED_TOPOLOGY_INFO it.level
  let it' : ExtendedTopologyIter := ⟨it.level + 1⟩
  let et := etOf res
  match level_type et with
  | none => none
  | some .INVALID => some none
  | some _ => some (some (et, it'))

/-- Collect the items the extended-topology iterator yields, with fuel;
`none` if a fetch panics or the fuel runs out before the iterator ends. -/
def extTopoYield (reader : Nat → Nat → CpuIdResult) (it : ExtendedTopologyIter) :
    Nat → Option (List ExtendedTopologyLevel)
  | 0 => none
  | fuel + 1 =>
      match extTopoNext reader it with
      | none => none
      | some none => some []
      | some (some (et, it')) => (extTopoYield reader it' fuel).map (et :: ·)

/-! ## Association-list map lemmas -/

theorem mapFind?_insert_self {α : Type} (m : List (Nat × α)) (k : Nat) (v : α) :
    mapFind? (mapInsert m k v) k = some v := by
  induction m with
  | nil => simp [mapInsert, mapFind?]
  | cons hd rest ih =>
    obtain ⟨k', w⟩ := hd
    by_cases hk : k' = k
    · simp [mapInsert, hk, mapFind?]
    · simp [mapInsert, hk, mapFind?, ih]

theorem mapFind?_insert_ne {α : Type} (m : List (Nat × α)) (k k' : Nat) (v : α)
    (h : k' ≠ k) : mapFind? (mapInsert m k v) k' = mapFind? m k' := by
  induction m with
  | nil => simp [mapInsert, mapFind?, Ne.symm h]
  | cons hd rest ih =>
    obtain ⟨k0, w⟩ := hd
    by_cases hk : k0 = k
    · simp [mapInsert, mapFind?, hk, Ne.symm h]
    · simp [mapInsert, mapFind?, hk, ih]

theorem mapFind?_erase_self {α : Type} (m : List (Nat × α)) (k : Nat) :
    mapFind? (mapErase m k) k = none := by
  induction m with
  | nil => simp [mapErase, mapFind?]
  | cons hd rest ih =>
    obtain ⟨k0, w⟩ := hd
    by_cases hk : k0 = k
    · simp [mapErase, hk, ih]
    · simp [mapErase, hk, mapFind?, ih]

theorem mapFind?_erase_ne {α : Type} (m : List (Nat × α)) (k k' : Nat)
    (h : k' ≠ k) : mapFind? (mapErase m k) k' = mapFind? m k' := by
  induction m with
  | nil => simp [mapErase, mapFind?]
  | cons hd rest ih =>
    obtain ⟨k0, w⟩ := hd
    by_cases hk : k0 = k
    · simp [mapErase, mapFind?, hk, Ne.symm h, ih]
    · simp [mapErase, mapFind?, hk, ih]

theorem mapKeys_insert_mem {α : Type} (m : List (Nat × α)) (k : Nat) (v : α)
    (x : Nat) : x ∈ mapKeys (mapInsert m k v) ↔ x = k ∨ x ∈ mapKeys m := by
  induction m with
  | nil => simp [mapInsert, mapKeys]
  | cons hd rest ih =>
    obtain ⟨k0, w⟩ := hd
    by_cases hk : k0 = k
    · subst hk
      simp [mapInsert, mapKeys]
    · simp only [mapInsert, if_neg hk, mapKeys, List.map_cons, List.mem_cons] at ih ⊢
      rw [ih]
      tauto

theorem mapKeys_erase_mem {α : Type} (m : List (Nat × α)) (k : Nat) (x : Nat)
    (hx : x ≠ k) : x ∈ mapKeys (mapErase m k) ↔ x ∈ mapKeys m := by
  induction m with
  | nil => simp [mapErase, mapKeys]
  | cons hd rest ih =>
    obtain ⟨k0, w⟩ := hd
    by_cases hk : k0 = k
    · subst hk
      rw [show mapErase ((k0, w) :: rest) k0 = mapErase rest k0 from by simp [mapErase]]
      rw [ih]
      simp [mapKeys, hx]
    · simp only [mapErase, if_neg hk, mapKeys, List.map_cons, List.mem_cons] at ih ⊢
      rw [ih]

theorem mapFind?_eq_none_iff {α : Type} (m : List (Nat × α)) (k : Nat) :
    mapFind? m k = none ↔ k ∉ mapKeys m := by
  induction m with
  | nil => simp [mapFind?, mapKeys]
  | cons hd rest ih =>
    obtain ⟨k0, w⟩ := hd
    by_cases hk : k0 = k
    · simp [mapFind?, hk, mapKeys]
    · simp only [mapFind?, if_neg hk, mapKeys, List.map_cons, List.mem_cons, ih]
      constructor
      · rintro hh (h1 | h2)
        · exact hk h1.symm
        · exact hh h2
      · intro hh h2
        exact hh (Or.inr h2)

theorem mapFind?_isSome_iff {α : Type} (m : List (Nat × α)) (k : Nat) :
    (∃ v, mapFind? m k = some v) ↔ k ∈ mapKeys m := by
  rcases h : mapFind? m k with _ | v
  · rw [mapFind?_eq_none_iff] at h
    simp [h]
  · have : k ∈ mapKeys m := by
      by_contra hc
      rw [← mapFind?_eq_none_iff] at hc
      rw [h] at hc; cases hc
    simp [this]

/-! ## Characterisation of the max-scan -/

theorem foldBump_none (p : Nat → Prop) [DecidablePred p] :
    ∀ (ks : List Nat) (a : Option Nat),
      ks.foldl (fun s k => if p k then bumpMax s k else s) a = none ↔
        a = none ∧ ∀ k ∈ ks, ¬ p k := by
  intro ks
  induction ks with
  | nil => simp
  | cons k0 rest ih =>
    intro a
    by_cases hp : p k0
    · simp only [List.foldl_cons, if_pos hp, ih, List.mem_cons]
      constructor
      · rintro ⟨hb, -⟩
        cases a <;> simp [bumpMax] at hb
      · rintro ⟨-, hall⟩
        exact absurd hp (hall k0 (Or.inl rfl))
    · simp only [List.foldl_cons, if_neg hp, ih, List.mem_cons]
      constructor
      · rintro ⟨ha, hall⟩
        refine ⟨ha, ?_⟩
        rintro k (rfl | hk)
        · exact hp
        · exact hall k hk
      · rintro ⟨ha, hall⟩
        exact ⟨ha, fun k hk => hall k (Or.inr hk)⟩

theorem foldBump_some (p : Nat → Prop) [DecidablePred p] :
    ∀ (ks : List Nat) (a : Option Nat) (v : Nat),
      ks.foldl (fun s k => if p k then bumpMax s k else s) a = some v →
        ((v ∈ ks ∧ p v) ∨ a = some v) ∧ (∀ k ∈ ks, p k → k ≤ v) ∧
          (∀ x, a = some x → x ≤ v) := by
  intro ks
  induction ks with
  | nil =>
    intro a v h
    simp only [List.foldl_nil] at h
    exact ⟨Or.inr h, by simp, fun x hx => by rw [hx] at h; simp at h; omega⟩
  | cons k0 rest ih =>
    intro a v h
    by_cases hp : p k0
    · simp only [List.foldl_cons, if_pos hp] at h
      obtain ⟨hmem, hbound, hacc⟩ := ih (bumpMax a k0) v h
      have hk0v : k0 ≤ v := by
        rcases a with _ | x
        · exact hacc k0 rfl
        · have := hacc (max k0 x) rfl
          omega
      refine ⟨?_, ?_, ?_⟩
      · rcases hmem with ⟨hv, hpv⟩ | hb
        · exact Or.inl ⟨List.mem_cons_of_mem _ hv, hpv⟩
        · rcases a with _ | x
          · simp only [bumpMax] at hb
            injection hb with hb
            subst hb
            exact Or.inl ⟨List.mem_cons_self _ _, hp⟩
          · simp only [bumpMax] at hb
            injection hb with hb
            rcases max_choice k0 x with hm | hm
            · rw [hm] at hb; subst hb
              exact Or.inl ⟨List.mem_cons_self _ _, hp⟩
            · rw [hm] at hb; subst hb
              exact Or.inr rfl
      · intro k hk hpk
        rcases List.mem_cons.mp hk with rfl | hk2
        · exact hk0v
        · exact hbound k hk2 hpk
      · intro x hx
        subst hx
        have := hacc (max k0 x) (by simp [bumpMax])
        omega
    · simp only [List.foldl_cons, if_neg hp] at h
      obtain ⟨hmem, hbound, hacc⟩ := ih a v h
      refine ⟨?_, ?_, hacc⟩
      · rcases hmem with ⟨hv, hpv⟩ | hb
        · exact Or.inl ⟨List.mem_cons_of_mem _ hv, hpv⟩
        · exact Or.inr hb
      · intro k hk hpk
        rcases List.mem_cons.mp hk with rfl | hk2
        · exact absurd hpk hp
        · exact hbound k hk2 hpk

theorem scanFold_fst : ∀ (ks : List Nat) (a b c : Option Nat),
    (ks.foldl scanStep (a, b, c)).1 =
      ks.foldl (fun s k => if k < 0x40000000 then bumpMax s k else s) a := by
  intro ks
  induction ks with
  | nil => intro a b c; rfl
  | cons k0 rest ih =>
    intro a b c
    simp only [List.foldl_cons, scanStep]
    by_cases h1 : k0 < 0x40000000
    · rw [if_pos h1, if_pos h1, ih]
    · rw [if_neg h1, if_neg h1]
      by_cases h2 : k0 < 0x80000000
      · rw [if_pos h2, ih]
      · rw [if_neg h2]
        by_cases h3 : k0 < 0xc0000000
        · rw [if_pos h3, ih]
        · rw [if_neg h3, ih]

theorem scanFold_snd : ∀ (ks : List Nat) (a b c : Option Nat),
    (ks.foldl scanStep (a, b, c)).2.1 =
      ks.foldl (fun s k =>
        if 0x40000000 ≤ k ∧ k < 0x80000000 then bumpMax s k else s) b := by
  intro ks
  induction ks with
  | nil => intro a b c; rfl
  | cons k0 rest ih =>
    intro a b c
    simp only [List.foldl_cons, scanStep]
    by_cases h1 : k0 < 0x40000000
    · rw [if_pos h1, if_neg (by omega : ¬(0x40000000 ≤ k0 ∧ k0 < 0x80000000)), ih]
    · rw [if_neg h1]
      by_cases h2 : k0 < 0x80000000
      · rw [if_pos h2, if_pos (by omega : 0x40000000 ≤ k0 ∧ k0 < 0x80000000), ih]
      · rw [if_neg h2, if_neg (by omega : ¬(0x40000000 ≤ k0 ∧ k0 < 0x80000000))]
        by_cases h3 : k0 < 0xc0000000
        · rw [if_pos h3, ih]
        · rw [if_neg h3, ih]

theorem scanFold_trd : ∀ (ks : List Nat) (a b c : Option Nat),
    (ks.foldl scanStep (a, b, c)).2.2 =
      ks.foldl (fun s k =>
        if 0x80000000 ≤ k ∧ k < 0xc0000000 then bumpMax s k else s) c := by
  intro ks
  induction ks with
  | nil => intro a b c; rfl
  | cons k0 rest ih =>
    intro a b c
    simp only [List.foldl_cons, scanStep]
    by_cases h1 : k0 < 0x40000000
    · rw [if_pos h1, if_neg (by omega : ¬(0x80000000 ≤ k0 ∧ k0 < 0xc0000000)), ih]
    · rw [if_neg h1]
      by_cases h2 : k0 < 0x80000000
      · rw [if_pos h2, if_neg (by omega : ¬(0x80000000 ≤ k0 ∧ k0 < 0xc0000000)), ih]
      · rw [if_neg h2]
        by_cases h3 : k0 < 0xc0000000
        · rw [if_pos h3, if_pos (by omega : 0x80000000 ≤ k0 ∧ k0 < 0xc0000000), ih]
        · rw [if_neg h3, if_neg (by omega : ¬(0x80000000 ≤ k0 ∧ k0 < 0xc0000000)), ih]

/-! ## `foldr max 0` facts -/

theorem foldr_max_le (l : List Nat) (v : Nat) (hb : ∀ k ∈ l, k ≤ v) :
    l.foldr max 0 ≤ v := by
  induction l with
  | nil => simp
  | cons k0 rest ih =>
    simp only [List.foldr_cons]
    have h1 : k0 ≤ v := hb k0 (List.mem_cons_self _ _)
    have h2 : rest.foldr max 0 ≤ v := ih (fun k hk => hb k (List.mem_cons_of_mem _ hk))
    omega

theorem le_foldr_max (l : List Nat) (v : Nat) (hv : v ∈ l) :
    v ≤ l.foldr max 0 := by
  induction l with
  | nil => cases hv
  | cons k0 rest ih =>
    simp only [List.foldr_cons]
    rcases List.mem_cons.mp hv with rfl | hv'
    · omega
    · have := ih hv'
      omega

theorem foldr_max_eq (l : List Nat) (v : Nat) (hv : v ∈ l) (hb : ∀ k ∈ l, k ≤ v) :
    l.foldr max 0 = v :=
  Nat.le_antisymm (foldr_max_le l v hb) (le_foldr_max l v hv)

/-! ## `applyMax` and `update_max_leaves` lemmas -/

theorem applyMax_find_ne {m m' : List (Nat × LeafOrSubleaves)} {key : Nat}
    {mx : Option Nat} (h : applyMax m key mx = some m') (k : Nat) (hk : k ≠ key) :
    mapFind? m' k = mapFind? m k := by
  rcases mx with _ | v
  · simp only [applyMax] at h
    injection h with h
    rw [← h]
  · simp only [applyMax] at h
    rcases hf : mapFind? m key with _ | e
    · rw [hf] at h
      injection h with h
      rw [← h, mapFind?_insert_ne _ _ _ _ hk]
    · rcases e with l | t
      · rw [hf] at h
        injection h with h
        rw [← h, mapFind?_insert_ne _ _ _ _ hk]
      · rw [hf] at h
        cases h

theorem applyMax_keys_mem {m m' : List (Nat × LeafOrSubleaves)} {key : Nat}
    {mx : Option Nat} (h : applyMax m key mx = some m') (x : Nat) :
    x ∈ mapKeys m' ↔ x ∈ mapKeys m ∨ (x = key ∧ mx ≠ none) := by
  rcases mx with _ | v
  · simp only [applyMax] at h
    injection h with h
    rw [← h]
    simp
  · simp only [applyMax] at h
    rcases hf : mapFind? m key with _ | e
    · rw [hf] at h
      injection h with h
      rw [← h, mapKeys_insert_mem]
      constructor
      · rintro (rfl | hx)
        · exact Or.inr ⟨rfl, by simp⟩
        · exact Or.inl hx
      · rintro (hx | ⟨rfl, -⟩)
        · exact Or.inr hx
        · exact Or.inl rfl
    · rcases e with l | t
      · rw [hf] at h
        injection h with h
        rw [← h, mapKeys_insert_mem]
        have hkm : key ∈ mapKeys m := (mapFind?_isSome_iff m key).mp ⟨_, hf⟩
        constructor
        · rintro (rfl | hx)
          · exact Or.inl hkm
          · exact Or.inl hx
        · rintro (hx | ⟨rfl, -⟩)
          · exact Or.inr hx
          · exact Or.inl rfl
      · rw [hf] at h
        cases h

theorem applyMax_subleaf_iff {m m' : List (Nat × LeafOrSubleaves)} {key : Nat}
    {mx : Option Nat} (h : applyMax m key mx = some m') (k : Nat)
    (t : List (Nat × CpuIdResult)) :
    mapFind? m' k = some (.Subleaf t) ↔ mapFind? m k = some (.Subleaf t) := by
  by_cases hk : k = key
  · subst hk
    rcases mx with _ | v
    · simp only [applyMax] at h
      injection h with h
      rw [← h]
    · simp only [applyMax] at h
      rcases hf : mapFind? m k with _ | e
      · rw [hf] at h
        injection h with h
        rw [← h, mapFind?_insert_self]
        simp
      · rcases e with l | t'
        · rw [hf] at h
          injection h with h
          rw [← h, mapFind?_insert_self]
          simp
        · rw [hf] at h
          cases h
  · rw [applyMax_find_ne h k hk]

theorem applyMax_find_self {m m' : List (Nat × LeafOrSubleaves)} {key v : Nat}
    (h : applyMax m key (some v) = some m') :
    (∃ l, mapFind? m key = some (.Leaf l) ∧
        mapFind? m' key = some (.Leaf { l with eax := v })) ∨
      (mapFind? m key = none ∧ mapFind? m' key = some (.Leaf ⟨v, 0, 0, 0⟩)) := by
  simp only [applyMax] at h
  rcases hf : mapFind? m key with _ | e
  · rw [hf] at h
    injection h with h
    right
    refine ⟨rfl, ?_⟩
    rw [← h, mapFind?_insert_self]
    simp [CpuIdResult.empty]
  · rcases e with l | t
    · rw [hf] at h
      injection h with h
      left
      exact ⟨l, rfl, by rw [← h, mapFind?_insert_self]⟩
    · rw [hf] at h
      cases h

theorem applyMax_fault {m : List (Nat × LeafOrSubleaves)} {key v : Nat}
    {t : List (Nat × CpuIdResult)} (hf : mapFind? m key = some (.Subleaf t)) :
    applyMax m key (some v) = none := by
  simp only [applyMax, hf]

theorem update_destruct {d d' : CpuIdDump} (h : update_max_leaves d = some d') :
    ∃ m1 m2 m3,
      applyMax d.leaves 0x0 (scanMaxes (mapKeys d.leaves)).1 = some m1 ∧
      applyMax m1 0x40000000 (scanMaxes (mapKeys d.leaves)).2.1 = some m2 ∧
      applyMax m2 0x80000000 (scanMaxes (mapKeys d.leaves)).2.2 = some m3 ∧
      d' = ⟨m3⟩ := by
  simp only [update_max_leaves, Option.bind_eq_some, Option.map_eq_some'] at h
  obtain ⟨m1, h1, m2, h2, m3, h3, h4⟩ := h
  exact ⟨m1, m2, m3, h1, h2, h3, h4.symm⟩

theorem update_find_other {d d' : CpuIdDump} (h : update_max_leaves d = some d')
    (k : Nat) (h0 : k ≠ 0x0) (h1 : k ≠ 0x40000000) (h2 : k ≠ 0x80000000) :
    mapFind? d'.leaves k = mapFind? d.leaves k := by
  obtain ⟨m1, m2, m3, ha, hb, hc, rfl⟩ := update_destruct h
  rw [show (⟨m3⟩ : CpuIdDump).leaves = m3 from rfl,
    applyMax_find_ne hc k h2, applyMax_find_ne hb k h1, applyMax_find_ne ha k h0]

theorem update_keys_mem {d d' : CpuIdDump} (h : update_max_leaves d = some d')
    (x : Nat) :
    x ∈ mapKeys d'.leaves ↔ x ∈ mapKeys d.leaves ∨
      (x = 0x0 ∧ (scanMaxes (mapKeys d.leaves)).1 ≠ none) ∨
      (x = 0x40000000 ∧ (scanMaxes (mapKeys d.leaves)).2.1 ≠ none) ∨
      (x = 0x80000000 ∧ (scanMaxes (mapKeys d.leaves)).2.2 ≠ none) := by
  obtain ⟨m1, m2, m3, ha, hb, hc, rfl⟩ := update_destruct h
  rw [show (⟨m3⟩ : CpuIdDump).leaves = m3 from rfl,
    applyMax_keys_mem hc, applyMax_keys_mem hb, applyMax_keys_mem ha]
  tauto

theorem update_subleaf_iff {d d' : CpuIdDump} (h : update_max_leaves d = some d')
    (k : Nat) (t : List (Nat × CpuIdResult)) :
    mapFind? d'.leaves k = some (.Subleaf t) ↔
      mapFind? d.leaves k = some (.Subleaf t) := by
  obtain ⟨m1, m2, m3, ha, hb, hc, rfl⟩ := update_destruct h
  rw [show (⟨m3⟩ : CpuIdDump).leaves = m3 from rfl,
    applyMax_subleaf_iff hc, applyMax_subleaf_iff hb, applyMax_subleaf_iff ha]

theorem update_find_zero_none {d d' : CpuIdDump} (h : update_max_leaves d = some d')
    (hs : (scanMaxes (mapKeys d.leaves)).1 = none) :
    mapFind? d'.leaves 0x0 = mapFind? d.leaves 0x0 := by
  obtain ⟨m1, m2, m3, ha, hb, hc, rfl⟩ := update_destruct h
  rw [hs] at ha
  simp only [applyMax] at ha
  injection ha with ha
  rw [show (⟨m3⟩ : CpuIdDump).leaves = m3 from rfl,
    applyMax_find_ne hc 0x0 (by norm_num), applyMax_find_ne hb 0x0 (by norm_num), ha]

theorem update_find_zero_some {d d' : CpuIdDump} {v : Nat}
    (h : update_max_leaves d = some d')
    (hs : (scanMaxes (mapKeys d.leaves)).1 = some v) :
    (∃ l, mapFind? d.leaves 0x0 = some (.Leaf l) ∧
        mapFind? d'.leaves 0x0 = some (.Leaf { l with eax := v })) ∨
      (mapFind? d.leaves 0x0 = none ∧
        mapFind? d'.leaves 0x0 = some (.Leaf ⟨v, 0, 0, 0⟩)) := by
  obtain ⟨m1, m2, m3, ha, hb, hc, rfl⟩ := update_destruct h
  rw [hs] at ha
  have hstep : mapFind? (⟨m3⟩ : CpuIdDump).leaves 0x0 = mapFind? m1 0x0 := by
    rw [show (⟨m3⟩ : CpuIdDump).leaves = m3 from rfl,
      applyMax_find_ne hc 0x0 (by norm_num), applyMax_find_ne hb 0x0 (by norm_num)]
  rcases applyMax_find_self ha with ⟨l, hl1, hl2⟩ | ⟨h1, h2⟩
  · exact Or.inl ⟨l, hl1, by rw [hstep, hl2]⟩
  · exact Or.inr ⟨h1, by rw [hstep, h2]⟩

theorem update_find_hv_none {d d' : CpuIdDump} (h : update_max_leaves d = some d')
    (hs : (scanMaxes (mapKeys d.leaves)).2.1 = none) :
    mapFind? d'.leaves 0x40000000 = mapFind? d.leaves 0x40000000 := by
  obtain ⟨m1, m2, m3, ha, hb, hc, rfl⟩ := update_destruct h
  rw [hs] at hb
  simp only [applyMax] at hb
  injection hb with hb
  rw [show (⟨m3⟩ : CpuIdDump).leaves = m3 from rfl,
    applyMax_find_ne hc 0x40000000 (by norm_num), ← hb,
    applyMax_find_ne ha 0x40000000 (by norm_num)]

theorem update_find_hv_some {d d' : CpuIdDump} {v : Nat}
    (h : update_max_leaves d = some d')
    (hs : (scanMaxes (mapKeys d.leaves)).2.1 = some v) :
    (∃ l, mapFind? d.leaves 0x40000000 = some (.Leaf l) ∧
        mapFind? d'.leaves 0x40000000 = some (.Leaf { l with eax := v })) ∨
      (mapFind? d.leaves 0x40000000 = none ∧
        mapFind? d'.leaves 0x40000000 = some (.Leaf ⟨v, 0, 0, 0⟩)) := by
  obtain ⟨m1, m2, m3, ha, hb, hc, rfl⟩ := update_destruct h
  rw [hs] at hb
  have hpre : mapFind? m1 0x40000000 = mapFind? d.leaves 0x40000000 :=
    applyMax_find_ne ha 0x40000000 (by norm_num)
  have hstep : mapFind? (⟨m3⟩ : CpuIdDump).leaves 0x40000000 = mapFind? m2 0x40000000 := by
    rw [show (⟨m3⟩ : CpuIdDump).leaves = m3 from rfl,
      applyMax_find_ne hc 0x40000000 (by norm_num)]
  rcases applyMax_find_self hb with ⟨l, hl1, hl2⟩ | ⟨h1, h2⟩
  · exact Or.inl ⟨l, by rw [← hpre, hl1], by rw [hstep, hl2]⟩
  · exact Or.inr ⟨by rw [← hpre, h1], by rw [hstep, h2]⟩

theorem update_find_ext_none {d d' : CpuIdDump} (h : update_max_leaves d = some d')
    (hs : (scanMaxes (mapKeys d.leaves)).2.2 = none) :
    mapFind? d'.leaves 0x80000000 = mapFind? d.leaves 0x80000000 := by
  obtain ⟨m1, m2, m3, ha, hb, hc, rfl⟩ := update_destruct h
  rw [hs] at hc
  simp only [applyMax] at hc
  injection hc with hc
  rw [show (⟨m3⟩ : CpuIdDump).leaves = m3 from rfl, ← hc,
    applyMax_find_ne hb 0x80000000 (by norm_num),
    applyMax_find_ne ha 0x80000000 (by norm_num)]

theorem update_find_ext_some {d d' : CpuIdDump} {v : Nat}
    (h : update_max_leaves d = some d')
    (hs : (scanMaxes (mapKeys d.leaves)).2.2 = some v) :
    (∃ l, mapFind? d.leaves 0x80000000 = some (.Leaf l) ∧
        mapFind? d'.leaves 0x80000000 = some (.Leaf { l with eax := v })) ∨
      (mapFind? d.leaves 0x80000000 = none ∧
        mapFind? d'.leaves 0x80000000 = some (.Leaf ⟨v, 0, 0, 0⟩)) := by
  obtain ⟨m1, m2, m3, ha, hb, hc, rfl⟩ := update_destruct h
  rw [hs] at hc
  have hpre : mapFind? m2 0x80000000 = mapFind? d.leaves 0x80000000 := by
    rw [applyMax_find_ne hb 0x80000000 (by norm_num),
      applyMax_find_ne ha 0x80000000 (by norm_num)]
  rcases applyMax_find_self hc with ⟨l, hl1, hl2⟩ | ⟨h1, h2⟩
  · exact Or.inl ⟨l, by rw [← hpre, hl1], hl2⟩
  · exact Or.inr ⟨by rw [← hpre, h1], h2⟩

/-! ## The bookkeeping invariant -/

theorem book_eq_some (d' : CpuIdDump) (key v : Nat) (p : Nat → Prop)
    [DecidablePred p] (r : CpuIdResult)
    (hfind : mapFind? d'.leaves key = some (.Leaf r)) (hre : r.eax = v)
    (hmem : v ∈ mapKeys d'.leaves) (hpv : p v)
    (hbound : ∀ x ∈ mapKeys d'.leaves, p x → x ≤ v) :
    (cpuid1 d' key).eax =
      ((mapKeys d'.leaves).filter (fun x => decide (p x))).foldr max 0 := by
  have hv' : v ∈ (mapKeys d'.leaves).filter (fun x => decide (p x)) :=
    List.mem_filter.mpr ⟨hmem, by simp [hpv]⟩
  have hb' : ∀ k ∈ (mapKeys d'.leaves).filter (fun x => decide (p x)), k ≤ v := by
    intro k hk
    have hk2 := List.mem_filter.mp hk
    exact hbound k hk2.1 (by simpa using hk2.2)
  rw [foldr_max_eq _ v hv' hb']
  simp [cpuid1, hfind, hre]

theorem book_eq_none (d' : CpuIdDump) (key : Nat) (p : Nat → Prop)
    [DecidablePred p] (hfind : mapFind? d'.leaves key = none)
    (hnone : ∀ x ∈ mapKeys d'.leaves, ¬ p x) :
    (cpuid1 d' key).eax =
      ((mapKeys d'.leaves).filter (fun x => decide (p x))).foldr max 0 := by
  have hemp : (mapKeys d'.leaves).filter (fun x => decide (p x)) = [] := by
    rw [List.filter_eq_nil_iff]
    intro a ha
    simp [hnone a ha]
  rw [hemp]
  simp [cpuid1, hfind, DEFAULT_LEAF]

theorem update_bookkeeping {d d' : CpuIdDump} (h : update_max_leaves d = some d') :
    (cpuid1 d' 0x0).eax =
        ((mapKeys d'.leaves).filter (fun k => k < 0x40000000)).foldr max 0 ∧
    (cpuid1 d' 0x40000000).eax =
        ((mapKeys d'.leaves).filter
          (fun k => 0x40000000 ≤ k ∧ k < 0x80000000)).foldr max 0 ∧
    (cpuid1 d' 0x80000000).eax =
        ((mapKeys d'.leaves).filter
          (fun k => 0x80000000 ≤ k ∧ k < 0xc0000000)).foldr max 0 := by
  have hsf : (scanMaxes (mapKeys d.leaves)).1 =
      (mapKeys d.leaves).foldl
        (fun s k => if k < 0x40000000 then bumpMax s k else s) none := by
    rw [scanMaxes]; exact scanFold_fst _ _ _ _
  have hsh : (scanMaxes (mapKeys d.leaves)).2.1 =
      (mapKeys d.leaves).foldl
        (fun s k => if 0x40000000 ≤ k ∧ k < 0x80000000 then bumpMax s k else s)
        none := by
    rw [scanMaxes]; exact scanFold_snd _ _ _ _
  have hse : (scanMaxes (mapKeys d.leaves)).2.2 =
      (mapKeys d.leaves).foldl
        (fun s k => if 0x80000000 ≤ k ∧ k < 0xc0000000 then bumpMax s k else s)
        none := by
    rw [scanMaxes]; exact scanFold_trd _ _ _ _
  refine ⟨?_, ?_, ?_⟩
  · -- standard namespace, key 0x0
    rcases hs : (scanMaxes (mapKeys d.leaves)).1 with _ | v
    · have hnop := (foldBump_none (fun k => k < 0x40000000)
        (mapKeys d.leaves) none).mp (by rw [← hsf, hs])
      have hfd : mapFind? d.leaves 0x0 = none := by
        rw [mapFind?_eq_none_iff]
        intro hmem
        exact hnop.2 0 hmem (by norm_num)
      refine book_eq_none d' 0x0 (fun k => k < 0x40000000) ?_ ?_
      · rw [update_find_zero_none h hs, hfd]
      · intro x hx
        rcases (update_keys_mem h x).mp hx with hmem | ⟨rfl, hne⟩ | ⟨rfl, hne⟩ |
          ⟨rfl, hne⟩
        · exact hnop.2 x hmem
        · exact absurd hs hne
        · norm_num
        · norm_num
    · obtain ⟨hmv, hbound0, -⟩ := foldBump_some (fun k => k < 0x40000000)
        (mapKeys d.leaves) none v (by rw [← hsf, hs])
      rcases hmv with ⟨hvks, hvp⟩ | hcon
      swap
      · cases hcon
      have hbound : ∀ x ∈ mapKeys d'.leaves, x < 0x40000000 → x ≤ v := by
        intro x hx hxp
        rcases (update_keys_mem h x).mp hx with hmem | ⟨rfl, -⟩ | ⟨rfl, -⟩ |
          ⟨rfl, -⟩
        · exact hbound0 x hmem hxp
        · exact Nat.zero_le v
        · norm_num at hxp
        · norm_num at hxp
      have hmem : v ∈ mapKeys d'.leaves := (update_keys_mem h v).mpr (Or.inl hvks)
      rcases update_find_zero_some h hs with ⟨l, -, hl2⟩ | ⟨-, h2⟩
      · exact book_eq_some d' 0x0 v _ _ hl2 rfl hmem hvp hbound
      · exact book_eq_some d' 0x0 v _ _ h2 rfl hmem hvp hbound
  · -- hypervisor namespace, key 0x40000000
    rcases hs : (scanMaxes (mapKeys d.leaves)).2.1 with _ | v
    · have hnop := (foldBump_none (fun k => 0x40000000 ≤ k ∧ k < 0x80000000)
        (mapKeys d.leaves) none).mp (by rw [← hsh, hs])
      have hfd : mapFind? d.leaves 0x40000000 = none := by
        rw [mapFind?_eq_none_iff]
        intro hmem
        exact hnop.2 0x40000000 hmem (by norm_num)
      refine book_eq_none d' 0x40000000 (fun k => 0x40000000 ≤ k ∧ k < 0x80000000) ?_ ?_
      · rw [update_find_hv_none h hs, hfd]
      · intro x hx
        rcases (update_keys_mem h x).mp hx with hmem | ⟨rfl, hne⟩ | ⟨rfl, hne⟩ |
          ⟨rfl, hne⟩
        · exact hnop.2 x hmem
        · norm_num
        · exact absurd hs hne
        · norm_num
    · obtain ⟨hmv, hbound0, -⟩ := foldBump_some
        (fun k => 0x40000000 ≤ k ∧ k < 0x80000000)
        (mapKeys d.leaves) none v (by rw [← hsh, hs])
      rcases hmv with ⟨hvks, hvp⟩ | hcon
      swap
      · cases hcon
      have hbound : ∀ x ∈ mapKeys d'.leaves,
          0x40000000 ≤ x ∧ x < 0x80000000 → x ≤ v := by
        intro x hx hxp
        rcases (update_keys_mem h x).mp hx with hmem | ⟨rfl, -⟩ | ⟨rfl, -⟩ |
          ⟨rfl, -⟩
        · exact hbound0 x hmem hxp
        · norm_num at hxp
        · exact hvp.1
        · norm_num at hxp
      have hmem : v ∈ mapKeys d'.leaves := (update_keys_mem h v).mpr (Or.inl hvks)
      rcases update_find_hv_some h hs with ⟨l, -, hl2⟩ | ⟨-, h2⟩
      · exact book_eq_some d' 0x40000000 v _ _ hl2 rfl hmem hvp hbound
      · exact book_eq_some d' 0x40000000 v _ _ h2 rfl hmem hvp hbound
  · -- extended namespace, key 0x80000000
    rcases hs : (scanMaxes (mapKeys d.leaves)).2.2 with _ | v
    · have hnop := (foldBump_none (fun k => 0x80000000 ≤ k ∧ k < 0xc0000000)
        (mapKeys d.leaves) none).mp (by rw [← hse, hs])
      have hfd : mapFind? d.leaves 0x80000000 = none := by
        rw [mapFind?_eq_none_iff]
        intro hmem
        exact hnop.2 0x80000000 hmem (by norm_num)
      refine book_eq_none d' 0x80000000 (fun k => 0x80000000 ≤ k ∧ k < 0xc0000000) ?_ ?_
      · rw [update_find_ext_none h hs, hfd]
      · intro x hx
        rcases (update_keys_mem h x).mp hx with hmem | ⟨rfl, hne⟩ | ⟨rfl, hne⟩ |
          ⟨rfl, hne⟩
        · exact hnop.2 x hmem
        · norm_num
        · norm_num
        · exact absurd hs hne
    · obtain ⟨hmv, hbound0, -⟩ := foldBump_some
        (fun k => 0x80000000 ≤ k ∧ k < 0xc0000000)
        (mapKeys d.leaves) none v (by rw [← hse, hs])
      rcases hmv with ⟨hvks, hvp⟩ | hcon
      swap
      · cases hcon
      have hbound : ∀ x ∈ mapKeys d'.leaves,
          0x80000000 ≤ x ∧ x < 0xc0000000 → x ≤ v := by
        intro x hx hxp
        rcases (update_keys_mem h x).mp hx with hmem | ⟨rfl, -⟩ | ⟨rfl, -⟩ |
          ⟨rfl, -⟩
        · exact hbound0 x hmem hxp
        · norm_num at hxp
        · norm_num at hxp
        · exact hvp.1
      have hmem : v ∈ mapKeys d'.leaves := (update_keys_mem h v).mpr (Or.inl hvks)
      rcases update_find_ext_some h hs with ⟨l, -, hl2⟩ | ⟨-, h2⟩
      · exact book_eq_some d' 0x80000000 v _ _ hl2 rfl hmem hvp hbound
      · exact book_eq_some d' 0x80000000 v _ _ h2 rfl hmem hvp hbound

theorem set_leaf_is_update {d : CpuIdDump} {leaf : Nat} {bits : Option CpuIdResult}
    {d' : CpuIdDump} (h : set_leaf d leaf bits = some d') :
    ∃ m, update_max_leaves m = some d' := by
  rcases bits with _ | b
  · exact ⟨_, h⟩
  · simp only [set_leaf] at h
    by_cases h1 : leaf = 0x00000001
    · rw [if_pos h1] at h
      rcases hf : mapFind? d.leaves 0x80000001 with _ | e
      · rw [hf] at h; exact ⟨_, h⟩
      · rcases e with l | t
        · rw [hf] at h; exact ⟨_, h⟩
        · rw [hf] at h; cases h
    · rw [if_neg h1] at h
      by_cases h2 : leaf = 0x80000001
      · rw [if_pos h2] at h
        rcases hf : mapFind? d.leaves 0x00000001 with _ | e
        · rw [hf] at h; exact ⟨_, h⟩
        · rcases e with l | t
          · rw [hf] at h; exact ⟨_, h⟩
          · rw [hf] at h; cases h
      · rw [if_neg h2] at h; exact ⟨_, h⟩

theorem set_subleaf_is_update {d : CpuIdDump} {leaf subleaf : Nat}
    {bits : Option CpuIdResult} {d' : CpuIdDump}
    (h : set_subleaf d leaf subleaf bits = some d') :
    ∃ m, update_max_leaves m = some d' := by
  rcases bits with _ | b
  · simp only [set_subleaf] at h
    rcases hf : mapFind? d.leaves leaf with _ | e
    · rw [hf] at h; exact ⟨_, h⟩
    · rcases e with l | t
      · rw [hf] at h; cases h
      · rw [hf] at h; exact ⟨_, h⟩
  · simp only [set_subleaf] at h
    rcases hf : mapFind? d.leaves leaf with _ | e
    · rw [hf] at h; exact ⟨_, h⟩
    · rcases e with l | t
      · rw [hf] at h; cases h
      · rw [hf] at h; exact ⟨_, h⟩

theorem applyOps_last : ∀ (ops : List DumpOp) (d0 d : CpuIdDump),
    applyOps d0 ops = some d → d = d0 ∨ ∃ m, update_max_leaves m = some d := by
  intro ops
  induction ops with
  | nil =>
    intro d0 d h
    simp only [applyOps, List.foldlM_nil] at h
    injection h with h
    exact Or.inl h.symm
  | cons op rest ih =>
    intro d0 d h
    rcases hop : applyOp d0 op with _ | d1
    · rw [applyOps, List.foldlM_cons, hop] at h
      cases h
    · rw [applyOps, List.foldlM_cons, hop] at h
      have h' : applyOps d1 rest = some d := h
      rcases ih d1 d h' with rfl | hm
      · rcases op with ⟨leaf, bits⟩ | ⟨leaf, s, bits⟩
        · exact Or.inr (set_leaf_is_update hop)
        · exact Or.inr (set_subleaf_is_update hop)
      · exact Or.inr hm

/-- Claim C2: after every non-faulting sequence of `set_leaf`/`set_subleaf`
writes and removals starting from the empty dump, `cpuid1 0x0` has `eax`
equal to the maximum stored leaf key below `0x4000_0000` (0 if there is
none), `cpuid1 0x4000_0000` has `eax` equal to the maximum stored key in
`[0x4000_0000, 0x8000_0000)`, and `cpuid1 0x8000_0000` has `eax` equal to
the maximum stored key in `[0x8000_0000, 0xC000_0000)`; keys at or above
`0xC000_0000` are excluded from all three maxima. -/
theorem spec_bookkeeping_invariant (ops : List DumpOp) (d : CpuIdDump)
    (h : applyOps CpuIdDump.new ops = some d) :
    (cpuid1 d 0x0).eax =
        ((mapKeys d.leaves).filter (fun k => k < 0x40000000)).foldr max 0 ∧
    (cpuid1 d 0x40000000).eax =
        ((mapKeys d.leaves).filter
          (fun k => 0x40000000 ≤ k ∧ k < 0x80000000)).foldr max 0 ∧
    (cpuid1 d 0x80000000).eax =
        ((mapKeys d.leaves).filter
          (fun k => 0x80000000 ≤ k ∧ k < 0xc0000000)).foldr max 0 := by
  rcases applyOps_last ops CpuIdDump.new d h with rfl | ⟨m, hm⟩
  · refine ⟨?_, ?_, ?_⟩ <;> simp [CpuIdDump.new, cpuid1, mapFind?, mapKeys, DEFAULT_LEAF]
  · exact update_bookkeeping hm

/-- Witness for C2 at a concrete write sequence. -/
theorem spec_bookkeeping_invariant_witness :
    (cpuid1 (⟨[(5, .Leaf ⟨1, 2, 3, 4⟩), (0, .Leaf ⟨5, 0, 0, 0⟩)]⟩ : CpuIdDump) 0x0).eax =
      ((mapKeys (⟨[(5, .Leaf ⟨1, 2, 3, 4⟩), (0, .Leaf ⟨5, 0, 0, 0⟩)]⟩ : CpuIdDump).leaves).filter
        (fun k => k < 0x40000000)).foldr max 0 :=
  (spec_bookkeeping_invariant [DumpOp.scalar 5 (some ⟨1, 2, 3, 4⟩)] _ (by decide)).1

/-! ## Mirror-mask bit algebra -/

theorem mask_disjoint : MIRROR_MASK &&& not32 MIRROR_MASK = 0 := by decide

theorem and_or_mask_outside (a b : Nat) :
    ((a &&& not32 MIRROR_MASK) ||| (b &&& MIRROR_MASK)) &&& not32 MIRROR_MASK =
      a &&& not32 MIRROR_MASK := by
  apply Nat.eq_of_testBit_eq
  intro i
  have hdb := congrArg (fun n => n.testBit i) mask_disjoint
  simp only [Nat.testBit_and, Nat.zero_testBit] at hdb
  simp only [Nat.testBit_and, Nat.testBit_or]
  cases hx : a.testBit i <;> cases hy : b.testBit i <;>
    cases hm : MIRROR_MASK.testBit i <;>
    cases hn : (not32 MIRROR_MASK).testBit i <;> simp_all

theorem and_or_mask_inside (a b : Nat) :
    ((a &&& not32 MIRROR_MASK) ||| (b &&& MIRROR_MASK)) &&& MIRROR_MASK =
      b &&& MIRROR_MASK := by
  apply Nat.eq_of_testBit_eq
  intro i
  have hdb := congrArg (fun n => n.testBit i) mask_disjoint
  simp only [Nat.testBit_and, Nat.zero_testBit] at hdb
  simp only [Nat.testBit_and, Nat.testBit_or]
  cases hx : a.testBit i <;> cases hy : b.testBit i <;>
    cases hm : MIRROR_MASK.testBit i <;>
    cases hn : (not32 MIRROR_MASK).testBit i <;> simp_all

/-! ## Round-trip through `set_leaf` / `cpuid1` -/

theorem set_leaf_some_destruct {d : CpuIdDump} {L : Nat} {Q : CpuIdResult}
    {d' : CpuIdDump} (h : set_leaf d L (some Q) = some d') :
    ∃ (lvs : List (Nat × LeafOrSubleaves)) (b : CpuIdResult),
      update_max_leaves ⟨lvs⟩ = some d' ∧
      mapFind? lvs L = some (.Leaf b) ∧
      b.eax = Q.eax ∧ b.ebx = Q.ebx ∧ b.ecx = Q.ecx ∧
      (L ≠ 0x80000001 → b = Q) ∧
      b.edx &&& not32 MIRROR_MASK = Q.edx &&& not32 MIRROR_MASK := by
  simp only [set_leaf] at h
  by_cases h1 : L = 0x00000001
  · rw [if_pos h1] at h
    rcases hf : mapFind? d.leaves 0x80000001 with _ | e
    · rw [hf] at h
      exact ⟨_, Q, h, mapFind?_insert_self _ _ _, rfl, rfl, rfl, fun _ => rfl, rfl⟩
    · rcases e with l | t
      · rw [hf] at h
        exact ⟨_, Q, h, mapFind?_insert_self _ _ _, rfl, rfl, rfl, fun _ => rfl, rfl⟩
      · rw [hf] at h; cases h
  · rw [if_neg h1] at h
    by_cases h2 : L = 0x80000001
    · rw [if_pos h2] at h
      rcases hf : mapFind? d.leaves 0x00000001 with _ | e
      · rw [hf] at h
        exact ⟨_, Q, h, mapFind?_insert_self _ _ _, rfl, rfl, rfl, fun _ => rfl, rfl⟩
      · rcases e with l | t
        · rw [hf] at h
          refine ⟨_, _, h, mapFind?_insert_self _ _ _, rfl, rfl, rfl,
⟨fun hc => absurd h2 hc, ?_⟩⟩
          exact and_or_mask_outside Q.edx l.edx
        · rw [hf] at h; cases h
    · rw [if_neg h2] at h
      exact ⟨_, Q, h, mapFind?_insert_self _ _ _, rfl, rfl, rfl, fun _ => rfl, rfl⟩

theorem update_preserves_leaf_fields {dd d' : CpuIdDump}
    (h : update_max_leaves dd = some d') (k : Nat) (b : CpuIdResult)
    (hfind : mapFind? dd.leaves k = some (.Leaf b)) :
    ∃ r, mapFind? d'.leaves k = some (.Leaf r) ∧
      r.ebx = b.ebx ∧ r.ecx = b.ecx ∧ r.edx = b.edx ∧
      (k ≠ 0x0 → k ≠ 0x40000000 → k ≠ 0x80000000 → r.eax = b.eax) := by
  by_cases h0 : k = 0x0
  · subst h0
    rcases hs : (scanMaxes (mapKeys dd.leaves)).1 with _ | v
    · refine ⟨b, ?_, rfl, rfl, rfl, fun _ _ _ => rfl⟩
      rw [update_find_zero_none h hs, hfind]
    · rcases update_find_zero_some h hs with ⟨l, hl1, hl2⟩ | ⟨hn, -⟩
      · rw [hfind] at hl1
        injection hl1 with hl1
        injection hl1 with hl1
        subst hl1
        exact ⟨_, hl2, rfl, rfl, rfl, fun hc _ _ => absurd rfl hc⟩
      · rw [hfind] at hn; cases hn
  · by_cases h4 : k = 0x40000000
    · subst h4
      rcases hs : (scanMaxes (mapKeys dd.leaves)).2.1 with _ | v
      · refine ⟨b, ?_, rfl, rfl, rfl, fun _ _ _ => rfl⟩
        rw [update_find_hv_none h hs, hfind]
      · rcases update_find_hv_some h hs with ⟨l, hl1, hl2⟩ | ⟨hn, -⟩
        · rw [hfind] at hl1
          injection hl1 with hl1
          injection hl1 with hl1
          subst hl1
          exact ⟨_, hl2, rfl, rfl, rfl, fun _ hc _ => absurd rfl hc⟩
        · rw [hfind] at hn; cases hn
    · by_cases h8 : k = 0x80000000
      · subst h8
        rcases hs : (scanMaxes (mapKeys dd.leaves)).2.2 with _ | v
        · refine ⟨b, ?_, rfl, rfl, rfl, fun _ _ _ => rfl⟩
          rw [update_find_ext_none h hs, hfind]
        · rcases update_find_ext_some h hs with ⟨l, hl1, hl2⟩ | ⟨hn, -⟩
          · rw [hfind] at hl1
            injection hl1 with hl1
            injection hl1 with hl1
            subst hl1
            exact ⟨_, hl2, rfl, rfl, rfl, fun _ _ hc => absurd rfl hc⟩
          · rw [hfind] at hn; cases hn
      · refine ⟨b, ?_, rfl, rfl, rfl, fun _ _ _ => rfl⟩
        rw [update_find_other h k h0 h4 h8, hfind]

/-- Claim C1: for every dump, leaf `L` and quad `Q`, a non-faulting
`set_leaf L (some Q)` followed by `cpuid1 L` returns `Q`: `ebx` and `ecx`
always agree, `eax` agrees unless `L` is a bookkeeping leaf (`0x0`,
`0x4000_0000`, `0x8000_0000`, whose `eax` the store maintains), and `edx`
agrees unless `L = 0x8000_0001` — and even then the bits outside the
mirrored positions agree. -/
theorem spec_roundtrip (d : CpuIdDump) (L : Nat) (Q : CpuIdResult)
    (d' : CpuIdDump) (h : set_leaf d L (some Q) = some d') :
    (cpuid1 d' L).ebx = Q.ebx ∧ (cpuid1 d' L).ecx = Q.ecx ∧
    (L ≠ 0x0 → L ≠ 0x40000000 → L ≠ 0x80000000 → (cpuid1 d' L).eax = Q.eax) ∧
    (L ≠ 0x80000001 → (cpuid1 d' L).edx = Q.edx) ∧
    (cpuid1 d' L).edx &&& not32 MIRROR_MASK = Q.edx &&& not32 MIRROR_MASK := by
  obtain ⟨lvs, b, hupd, hfindb, hbe, hbb, hbc, hbeq, hbd⟩ := set_leaf_some_destruct h
  obtain ⟨r, hr, hrb, hrc, hrd, hre⟩ :=
    update_preserves_leaf_fields hupd L b hfindb
  have hcp : cpuid1 d' L = r := by simp [cpuid1, hr]
  refine ⟨by rw [hcp, hrb, hbb], by rw [hcp, hrc, hbc], ?_, ?_, ?_⟩
  · intro h0 h4 h8
    rw [hcp, hre h0 h4 h8, hbe]
  · intro hL
    rw [hcp, hrd, hbeq hL]
  · rw [hcp, hrd, hbd]

/-- Witness for C1 at a concrete dump and quad. -/
theorem spec_roundtrip_witness :
    (cpuid1 (⟨[(7, .Leaf ⟨1, 2, 3, 4⟩), (0, .Leaf ⟨7, 0, 0, 0⟩)]⟩ : CpuIdDump) 7).ebx = 2 ∧
    (cpuid1 (⟨[(7, .Leaf ⟨1, 2, 3, 4⟩), (0, .Leaf ⟨7, 0, 0, 0⟩)]⟩ : CpuIdDump) 7).ecx = 3 ∧
    (7 ≠ 0x0 → 7 ≠ 0x40000000 → 7 ≠ 0x80000000 →
      (cpuid1 (⟨[(7, .Leaf ⟨1, 2, 3, 4⟩), (0, .Leaf ⟨7, 0, 0, 0⟩)]⟩ : CpuIdDump) 7).eax = 1) ∧
    (7 ≠ 0x80000001 →
      (cpuid1 (⟨[(7, .Leaf ⟨1, 2, 3, 4⟩), (0, .Leaf ⟨7, 0, 0, 0⟩)]⟩ : CpuIdDump) 7).edx = 4) ∧
    (cpuid1 (⟨[(7, .Leaf ⟨1, 2, 3, 4⟩), (0, .Leaf ⟨7, 0, 0, 0⟩)]⟩ : CpuIdDump) 7).edx &&&
        not32 MIRROR_MASK = 4 &&& not32 MIRROR_MASK :=
  spec_roundtrip CpuIdDump.new 7 ⟨1, 2, 3, 4⟩ _ (by decide)

/-! ## Mirroring between leaf 1h and leaf 8000_0001h -/

theorem set_leaf1_char {d d1 : CpuIdDump} {Q1 x0 : CpuIdResult}
    (hx : mapFind? d.leaves 0x80000001 = some (.Leaf x0))
    (h : set_leaf d 0x1 (some Q1) = some d1) :
    mapFind? d1.leaves 0x80000001 = some (.Leaf { x0 with
        edx := (x0.edx &&& not32 MIRROR_MASK) ||| (Q1.edx &&& MIRROR_MASK) }) ∧
    mapFind? d1.leaves 0x1 = some (.Leaf Q1) := by
  simp only [set_leaf, if_pos rfl, hx] at h
  constructor
  · rw [update_find_other h 0x80000001 (by norm_num) (by norm_num) (by norm_num)]
    rw [show ((⟨mapInsert (mapInsert d.leaves 0x80000001
      (.Leaf { x0 with edx := (x0.edx &&& not32 MIRROR_MASK) ||| (Q1.edx &&& MIRROR_MASK) }))
      0x1 (.Leaf Q1)⟩ : CpuIdDump)).leaves = mapInsert (mapInsert d.leaves 0x80000001
      (.Leaf { x0 with edx := (x0.edx &&& not32 MIRROR_MASK) ||| (Q1.edx &&& MIRROR_MASK) }))
      0x1 (.Leaf Q1) from rfl]
    rw [mapFind?_insert_ne _ _ _ _ (by norm_num), mapFind?_insert_self]
  · rw [update_find_other h 0x1 (by norm_num) (by norm_num) (by norm_num)]
    rw [show ((⟨mapInsert (mapInsert d.leaves 0x80000001
      (.Leaf { x0 with edx := (x0.edx &&& not32 MIRROR_MASK) ||| (Q1.edx &&& MIRROR_MASK) }))
      0x1 (.Leaf Q1)⟩ : CpuIdDump)).leaves = mapInsert (mapInsert d.leaves 0x80000001
      (.Leaf { x0 with edx := (x0.edx &&& not32 MIRROR_MASK) ||| (Q1.edx &&& MIRROR_MASK) }))
      0x1 (.Leaf Q1) from rfl]
    rw [mapFind?_insert_self]

theorem set_leafX_char {d dX : CpuIdDump} {Qx : CpuIdResult}
    (h : set_leaf d 0x80000001 (some Qx) = some dX) :
    ∃ bX : CpuIdResult, mapFind? dX.leaves 0x80000001 = some (.Leaf bX) ∧
      mapFind? dX.leaves 0x1 = mapFind? d.leaves 0x1 ∧
      (∀ P, mapFind? d.leaves 0x1 = some (.Leaf P) →
        bX = { Qx with
          edx := (Qx.edx &&& not32 MIRROR_MASK) ||| (P.edx &&& MIRROR_MASK) }) ∧
      (mapFind? d.leaves 0x1 = none → bX = Qx) := by
  replace h : (match mapFind? d.leaves 0x00000001 with
      | some (.Leaf prior) =>
          update_max_leaves ⟨mapInsert d.leaves 0x80000001 (.Leaf { Qx with
            edx := (Qx.edx &&& not32 MIRROR_MASK) ||| (prior.edx &&& MIRROR_MASK) })⟩
      | some (.Subleaf _) => none
      | none => update_max_leaves ⟨mapInsert d.leaves 0x80000001 (.Leaf Qx)⟩)
      = some dX := h
  rcases hf : mapFind? d.leaves 0x00000001 with _ | e
  · rw [hf] at h
    replace h : update_max_leaves ⟨mapInsert d.leaves 0x80000001 (.Leaf Qx)⟩ =
      some dX := h
    refine ⟨Qx, ?_, ?_, ?_, fun _ => rfl⟩
    · rw [update_find_other h 0x80000001 (by norm_num) (by norm_num) (by norm_num)]
      exact mapFind?_insert_self _ _ _
    · rw [update_find_other h 0x1 (by norm_num) (by norm_num) (by norm_num)]
      rw [mapFind?_insert_ne _ 0x80000001 0x1 _ (by norm_num)]
      exact hf
    · intro P hP
      cases hP
  · rcases e with P0 | t
    · rw [hf] at h
      replace h : update_max_leaves ⟨mapInsert d.leaves 0x80000001 (.Leaf { Qx with
          edx := (Qx.edx &&& not32 MIRROR_MASK) ||| (P0.edx &&& MIRROR_MASK) })⟩ =
        some dX := h
      refine ⟨{ Qx with
        edx := (Qx.edx &&& not32 MIRROR_MASK) ||| (P0.edx &&& MIRROR_MASK) },
        ?_, ?_, ?_, ?_⟩
      · rw [update_find_other h 0x80000001 (by norm_num) (by norm_num) (by norm_num)]
        exact mapFind?_insert_self _ _ _
      · rw [update_find_other h 0x1 (by norm_num) (by norm_num) (by norm_num)]
        rw [mapFind?_insert_ne _ 0x80000001 0x1 _ (by norm_num)]
        exact hf
      · intro P hP
        injection hP with hP
        injection hP with hP
        subst hP
        rfl
      · intro hP
        cases hP
    · rw [hf] at h
      replace h : (none : Option CpuIdDump) = some dX := h
      cases h

/-- Claim C3: on a dump where leaf 8000_0001h is present as a scalar with edx
bit 5 clear, a scalar write to leaf 1h whose quad has edx bit 5 set makes
`cpuid1 0x8000_0001` report edx bit 5 set; and writing the two quads in
either order leaves the same converged edx value in the mirrored bit
positions on both leaves. -/
theorem spec_mirroring (d : CpuIdDump) (x0 Q1 Qx : CpuIdResult)
    (hx : mapFind? d.leaves 0x80000001 = some (.Leaf x0))
    (_hb5 : x0.edx.testBit 5 = false)
    (hq : Q1.edx.testBit 5 = true) :
    (∀ d1, set_leaf d 0x1 (some Q1) = some d1 →
      (cpuid1 d1 0x80000001).edx.testBit 5 = true) ∧
    (∀ dA dB,
      (set_leaf d 0x1 (some Q1)).bind
        (fun m => set_leaf m 0x80000001 (some Qx)) = some dA →
      (set_leaf d 0x80000001 (some Qx)).bind
        (fun m => set_leaf m 0x1 (some Q1)) = some dB →
      (cpuid1 dA 0x80000001).edx &&& MIRROR_MASK = Q1.edx &&& MIRROR_MASK ∧
      (cpuid1 dB 0x80000001).edx &&& MIRROR_MASK = Q1.edx &&& MIRROR_MASK ∧
      (cpuid1 dA 0x1).edx &&& MIRROR_MASK = Q1.edx &&& MIRROR_MASK ∧
      (cpuid1 dB 0x1).edx &&& MIRROR_MASK = Q1.edx &&& MIRROR_MASK) := by
  constructor
  · intro d1 h1
    obtain ⟨hX1, h11⟩ := set_leaf1_char hx h1
    have hc : cpuid1 d1 0x80000001 = { x0 with
        edx := (x0.edx &&& not32 MIRROR_MASK) ||| (Q1.edx &&& MIRROR_MASK) } := by
      simp [cpuid1, hX1]
    rw [hc]
    have hm5 : MIRROR_MASK.testBit 5 = true := by decide
    have hn5 : (not32 MIRROR_MASK).testBit 5 = false := by decide
    simp [Nat.testBit_or, Nat.testBit_and, hq, hm5, hn5]
  · intro dA dB hA hB
    rcases hA1 : set_leaf d 0x1 (some Q1) with _ | d1
    · rw [hA1] at hA; cases hA
    rw [hA1] at hA
    replace hA : set_leaf d1 0x80000001 (some Qx) = some dA := hA
    obtain ⟨hX1, h11⟩ := set_leaf1_char hx hA1
    obtain ⟨bA, hbA, hbA1, hbAP, -⟩ := set_leafX_char hA
    have hbAv := hbAP Q1 h11
    rcases hB1 : set_leaf d 0x80000001 (some Qx) with _ | dB1
    · rw [hB1] at hB; cases hB
    rw [hB1] at hB
    replace hB : set_leaf dB1 0x1 (some Q1) = some dB := hB
    obtain ⟨bX, hbX, hbX1, -, -⟩ := set_leafX_char hB1
    obtain ⟨hXB, h1B⟩ := set_leaf1_char hbX hB
    refine ⟨?_, ?_, ?_, ?_⟩
    · have hc : cpuid1 dA 0x80000001 = bA := by simp [cpuid1, hbA]
      rw [hc, hbAv]
      exact and_or_mask_inside Qx.edx Q1.edx
    · have hc : cpuid1 dB 0x80000001 = { bX with
          edx := (bX.edx &&& not32 MIRROR_MASK) ||| (Q1.edx &&& MIRROR_MASK) } := by
        simp [cpuid1, hXB]
      rw [hc]
      exact and_or_mask_inside bX.edx Q1.edx
    · have hc : cpuid1 dA 0x1 = Q1 := by
        rw [cpuid1, hbA1, h11]
      rw [hc]
    · have hc : cpuid1 dB 0x1 = Q1 := by
        rw [cpuid1, h1B]
      rw [hc]

/-- Witness for C3 at a concrete dump, quads, and both write orders. -/
theorem spec_mirroring_witness :
    (cpuid1 (⟨[(0x80000001, .Leaf ⟨0, 0, 0, 32⟩), (1, .Leaf ⟨0, 0, 0, 32⟩),
        (0, .Leaf ⟨1, 0, 0, 0⟩), (0x80000000, .Leaf ⟨0x80000001, 0, 0, 0⟩)]⟩ : CpuIdDump)
        0x80000001).edx.testBit 5 = true ∧
    (cpuid1 (⟨[(0x80000001, .Leaf ⟨0, 0, 0, 32⟩), (0x80000000, .Leaf ⟨0x80000001, 0, 0, 0⟩),
        (1, .Leaf ⟨0, 0, 0, 32⟩), (0, .Leaf ⟨1, 0, 0, 0⟩)]⟩ : CpuIdDump)
        0x80000001).edx &&& MIRROR_MASK = 32 &&& MIRROR_MASK := by
  have hthm := spec_mirroring ⟨[(0x80000001, .Leaf ⟨0, 0, 0, 0⟩)]⟩
    ⟨0, 0, 0, 0⟩ ⟨0, 0, 0, 32⟩ ⟨0, 0, 0, 0⟩ (by decide) (by decide) (by decide)
  exact ⟨hthm.1 _ (by decide),
    (hthm.2 ⟨[(0x80000001, .Leaf ⟨0, 0, 0, 32⟩), (1, .Leaf ⟨0, 0, 0, 32⟩),
        (0, .Leaf ⟨1, 0, 0, 0⟩), (0x80000000, .Leaf ⟨0x80000001, 0, 0, 0⟩)]⟩
      ⟨[(0x80000001, .Leaf ⟨0, 0, 0, 32⟩), (0x80000000, .Leaf ⟨0x80000001, 0, 0, 0⟩),
        (1, .Leaf ⟨0, 0, 0, 32⟩), (0, .Leaf ⟨1, 0, 0, 0⟩)]⟩
      (by decide) (by decide)).2.1⟩

/-! ## Scalar writes onto a subleaf-table leaf (claim C4) -/

/-- Counterexample to claim C4: on a dump where leaf 5 exists as a
`SubleafTable`, `set_leaf 5 (Some q)` does not fault — it silently replaces
the table with a `Scalar`. -/
theorem spec_scalar_shape_fault_cex :
    set_leaf (⟨[(5, .Subleaf [(0, ⟨1, 1, 1, 1⟩)]), (0, .Leaf ⟨5, 0, 0, 0⟩)]⟩ : CpuIdDump)
        5 (some ⟨9, 9, 9, 9⟩) =
      some ⟨[(5, .Leaf ⟨9, 9, 9, 9⟩), (0, .Leaf ⟨5, 0, 0, 0⟩)]⟩ := by decide

/-- Claim C4 (amended): `set_leaf` does not treat the shape mismatch as a
fault.  On a dump where leaf `L` exists as a `SubleafTable`, a non-faulting
`set_leaf L (Some q)` replaces the table with a `Scalar`, and a non-faulting
`set_leaf L None` removes the table (the entry can only reappear as a
bookkeeping `Scalar`, never as a table). -/
theorem spec_scalar_shape_overwrite (d : CpuIdDump) (L : Nat)
    (t : List (Nat × CpuIdResult)) (_htab : mapFind? d.leaves L = some (.Subleaf t)) :
    (∀ q d', set_leaf d L (some q) = some d' →
      ∃ r, mapFind? d'.leaves L = some (.Leaf r)) ∧
    (∀ d', set_leaf d L none = some d' →
      ∀ t', mapFind? d'.leaves L ≠ some (.Subleaf t')) := by
  constructor
  · intro q d' h
    obtain ⟨lvs, b, hupd, hfindb, -, -, -, -, -⟩ := set_leaf_some_destruct h
    obtain ⟨r, hr, -⟩ := update_preserves_leaf_fields hupd L b hfindb
    exact ⟨r, hr⟩
  · intro d' h t' hc
    replace h : update_max_leaves ⟨mapErase d.leaves L⟩ = some d' := h
    have hfound := (update_subleaf_iff h L t').mp hc
    rw [show (⟨mapErase d.leaves L⟩ : CpuIdDump).leaves = mapErase d.leaves L
      from rfl] at hfound
    rw [mapFind?_erase_self] at hfound
    cases hfound

/-- Witness for the amended C4 at a concrete dump. -/
theorem spec_scalar_shape_overwrite_witness :
    (∃ r, mapFind?
      (⟨[(5, .Leaf ⟨9, 9, 9, 9⟩), (0, .Leaf ⟨5, 0, 0, 0⟩)]⟩ : CpuIdDump).leaves 5 =
        some (.Leaf r)) ∧
    (∀ t', mapFind?
      (⟨[(0, .Leaf ⟨0, 0, 0, 0⟩)]⟩ : CpuIdDump).leaves 5 ≠ some (.Subleaf t')) := by
  have hthm := spec_scalar_shape_overwrite
    ⟨[(5, .Subleaf [(0, ⟨1, 1, 1, 1⟩)]), (0, .Leaf ⟨5, 0, 0, 0⟩)]⟩ 5
    [(0, ⟨1, 1, 1, 1⟩)] (by decide)
  exact ⟨hthm.1 ⟨9, 9, 9, 9⟩ _ (by decide), hthm.2 _ (by decide)⟩

/-! ## Subleaf writes and queries (claims C5, C6) -/

/-- Claim C5: `set_subleaf L s v` faults (for both inserting and removing
`v`) whenever leaf `L` currently exists as a `Scalar`; and when `L` is
absent, `set_subleaf L s (Some q)` creates `L` as a fresh table holding
exactly subleaf `s`. -/
theorem spec_subleaf_shape_fault (d : CpuIdDump) (L s : Nat) :
    (∀ r, mapFind? d.leaves L = some (.Leaf r) →
      ∀ v, set_subleaf d L s v = none) ∧
    (mapFind? d.leaves L = none → ∀ q d', set_subleaf d L s (some q) = some d' →
      mapFind? d'.leaves L = some (.Subleaf [(s, q)])) := by
  constructor
  · intro r hr v
    rcases v with _ | b <;> simp [set_subleaf, hr]
  · intro hn q d' h
    simp only [set_subleaf, hn] at h
    refine (update_subleaf_iff h L [(s, q)]).mpr ?_
    rw [show (⟨mapInsert d.leaves L (.Subleaf (mapInsert [] s q))⟩ : CpuIdDump).leaves =
      mapInsert d.leaves L (.Subleaf [(s, q)]) from rfl]
    exact mapFind?_insert_self _ _ _

/-- Witness for C5 at a concrete dump. -/
theorem spec_subleaf_shape_fault_witness :
    set_subleaf (⟨[(4, .Leaf ⟨1, 2, 3, 4⟩)]⟩ : CpuIdDump) 4 0 (some ⟨5, 5, 5, 5⟩) = none ∧
    mapFind?
      (⟨[(3, .Subleaf [(1, ⟨2, 2, 2, 2⟩)]), (0, .Leaf ⟨3, 0, 0, 0⟩)]⟩ : CpuIdDump).leaves 3 =
      some (.Subleaf [(1, ⟨2, 2, 2, 2⟩)]) := by
  have hthm := spec_subleaf_shape_fault (⟨[(4, .Leaf ⟨1, 2, 3, 4⟩)]⟩ : CpuIdDump) 4 0
  have hthm2 := spec_subleaf_shape_fault (⟨[]⟩ : CpuIdDump) 3 1
  exact ⟨hthm.1 ⟨1, 2, 3, 4⟩ (by decide) (some ⟨5, 5, 5, 5⟩),
    hthm2.2 (by decide) ⟨2, 2, 2, 2⟩ _ (by decide)⟩

/-- Claim C6: `cpuid2 L S` returns the stored quad when leaf `L` is a
`SubleafTable` containing `S`, and the all-zero fallback when `L` is absent,
when `L` is a `Scalar`, or when the table has no entry for `S`. -/
theorem spec_subleaf_query (d : CpuIdDump) (L S : Nat) :
    (∀ sl q, mapFind? d.leaves L = some (.Subleaf sl) → mapFind? sl S = some q →
      cpuid2 d L S = q) ∧
    (mapFind? d.leaves L = none → cpuid2 d L S = DEFAULT_LEAF) ∧
    (∀ r, mapFind? d.leaves L = some (.Leaf r) → cpuid2 d L S = DEFAULT_LEAF) ∧
    (∀ sl, mapFind? d.leaves L = some (.Subleaf sl) → mapFind? sl S = none →
      cpuid2 d L S = DEFAULT_LEAF) := by
  refine ⟨?_, ?_, ?_, ?_⟩
  · intro sl q h1 h2
    simp [cpuid2, h1, h2]
  · intro h1
    simp [cpuid2, h1]
  · intro r h1
    simp [cpuid2, h1]
  · intro sl h1 h2
    simp [cpuid2, h1, h2]

/-- Witness for C6 at a concrete dump, exercising all four cases. -/
theorem spec_subleaf_query_witness :
    cpuid2 (⟨[(3, .Subleaf [(1, ⟨2, 2, 2, 2⟩)]), (4, .Leaf ⟨7, 7, 7, 7⟩)]⟩ : CpuIdDump)
        3 1 = ⟨2, 2, 2, 2⟩ ∧
    cpuid2 (⟨[(3, .Subleaf [(1, ⟨2, 2, 2, 2⟩)]), (4, .Leaf ⟨7, 7, 7, 7⟩)]⟩ : CpuIdDump)
        9 0 = DEFAULT_LEAF ∧
    cpuid2 (⟨[(3, .Subleaf [(1, ⟨2, 2, 2, 2⟩)]), (4, .Leaf ⟨7, 7, 7, 7⟩)]⟩ : CpuIdDump)
        4 1 = DEFAULT_LEAF ∧
    cpuid2 (⟨[(3, .Subleaf [(1, ⟨2, 2, 2, 2⟩)]), (4, .Leaf ⟨7, 7, 7, 7⟩)]⟩ : CpuIdDump)
        3 2 = DEFAULT_LEAF := by
  have hthm := spec_subleaf_query
    (⟨[(3, .Subleaf [(1, ⟨2, 2, 2, 2⟩)]), (4, .Leaf ⟨7, 7, 7, 7⟩)]⟩ : CpuIdDump)
  exact ⟨(hthm 3 1).1 [(1, ⟨2, 2, 2, 2⟩)] ⟨2, 2, 2, 2⟩ (by decide) (by decide),
    (hthm 9 0).2.1 (by decide),
    (hthm 4 1).2.2.1 ⟨7, 7, 7, 7⟩ (by decide),
    (hthm 3 2).2.2.2 [(1, ⟨2, 2, 2, 2⟩)] (by decide) (by decide)⟩

/-! ## Bookkeeping leaves stored as tables (claim C8) -/

theorem update_fault_of_book_table {d : CpuIdDump} {B : Nat}
    (hB : B = 0x0 ∨ B = 0x40000000 ∨ B = 0x80000000)
    {t : List (Nat × CpuIdResult)}
    (ht : mapFind? d.leaves B = some (.Subleaf t)) :
    update_max_leaves d = none := by
  have hmem : B ∈ mapKeys d.leaves := (mapFind?_isSome_iff _ _).mp ⟨_, ht⟩
  rcases hB with rfl | rfl | rfl
  · obtain ⟨v, hv⟩ : ∃ v, (scanMaxes (mapKeys d.leaves)).1 = some v := by
      rcases hsc : (scanMaxes (mapKeys d.leaves)).1 with _ | v
      · have hbr : (scanMaxes (mapKeys d.leaves)).1 =
            (mapKeys d.leaves).foldl
              (fun s k => if k < 0x40000000 then bumpMax s k else s) none := by
          rw [scanMaxes]; exact scanFold_fst _ _ _ _
        have hno := (foldBump_none (fun k => k < 0x40000000) _ none).mp
          (by rw [← hbr, hsc])
        exact absurd (by norm_num : (0x0 : Nat) < 0x40000000) (hno.2 0x0 hmem)
      · exact ⟨v, rfl⟩
    simp [update_max_leaves, hv, applyMax_fault ht]
  · obtain ⟨v, hv⟩ : ∃ v, (scanMaxes (mapKeys d.leaves)).2.1 = some v := by
      rcases hsc : (scanMaxes (mapKeys d.leaves)).2.1 with _ | v
      · have hbr : (scanMaxes (mapKeys d.leaves)).2.1 =
            (mapKeys d.leaves).foldl
              (fun s k => if 0x40000000 ≤ k ∧ k < 0x80000000 then bumpMax s k else s)
              none := by
          rw [scanMaxes]; exact scanFold_snd _ _ _ _
        have hno := (foldBump_none (fun k => 0x40000000 ≤ k ∧ k < 0x80000000) _ none).mp
          (by rw [← hbr, hsc])
        exact absurd (by norm_num :
          (0x40000000 : Nat) ≤ 0x40000000 ∧ (0x40000000 : Nat) < 0x80000000)
          (hno.2 0x40000000 hmem)
      · exact ⟨v, rfl⟩
    simp only [update_max_leaves]
    rcases ha : applyMax d.leaves 0x0 (scanMaxes (mapKeys d.leaves)).1 with _ | m1
    · simp
    · have hf1 : mapFind? m1 0x40000000 = some (.Subleaf t) := by
        rw [applyMax_find_ne ha _ (by norm_num), ht]
      simp [hv, applyMax_fault hf1]
  · obtain ⟨v, hv⟩ : ∃ v, (scanMaxes (mapKeys d.leaves)).2.2 = some v := by
      rcases hsc : (scanMaxes (mapKeys d.leaves)).2.2 with _ | v
      · have hbr : (scanMaxes (mapKeys d.leaves)).2.2 =
            (mapKeys d.leaves).foldl
              (fun s k => if 0x80000000 ≤ k ∧ k < 0xc0000000 then bumpMax s k else s)
              none := by
          rw [scanMaxes]; exact scanFold_trd _ _ _ _
        have hno := (foldBump_none (fun k => 0x80000000 ≤ k ∧ k < 0xc0000000) _ none).mp
          (by rw [← hbr, hsc])
        exact absurd (by norm_num :
          (0x80000000 : Nat) ≤ 0x80000000 ∧ (0x80000000 : Nat) < 0xc0000000)
          (hno.2 0x80000000 hmem)
      · exact ⟨v, rfl⟩
    simp only [update_max_leaves]
    rcases ha : applyMax d.leaves 0x0 (scanMaxes (mapKeys d.leaves)).1 with _ | m1
    · simp
    · rcases hb2 : applyMax m1 0x40000000 (scanMaxes (mapKeys d.leaves)).2.1 with _ | m2
      · simp [hb2]
      · have hf2 : mapFind? m2 0x80000000 = some (.Subleaf t) := by
          rw [applyMax_find_ne hb2 _ (by norm_num),
            applyMax_find_ne ha _ (by norm_num), ht]
        simp [hb2, hv, applyMax_fault hf2]

/-- Counterexample to claim C8 as stated: on a dump whose bookkeeping leaf 0
exists as a `SubleafTable`, the write `set_leaf 0 (Some q)` — whose
bookkeeping recomputation does find entries in the standard namespace — does
not fault: it first replaces the table with a `Scalar`. -/
theorem spec_synth_table_fault_cex :
    set_leaf (⟨[(0, .Subleaf [(0, ⟨1, 1, 1, 1⟩)])]⟩ : CpuIdDump) 0
        (some ⟨7, 7, 7, 7⟩) =
      some ⟨[(0, .Leaf ⟨0, 7, 7, 7⟩)]⟩ := by decide

/-- Claim C8 (amended): while a bookkeeping leaf (`0x0`, `0x4000_0000`,
`0x8000_0000`) exists as a `SubleafTable`, the bookkeeping recomputation
itself faults — the leaf is an entry of its own namespace — so every
`set_subleaf` write faults, and every `set_leaf` write to any other leaf
faults; only `set_leaf` aimed at that very leaf can succeed, because it
replaces or removes the table before the recomputation.  In particular
`set_subleaf 0x0 s (Some q)` faults whenever leaf `0x0` is not a `Scalar`,
since the freshly created table at key `0x0` itself populates the standard
namespace. -/
theorem spec_synth_table_fault (d : CpuIdDump) :
    (∀ B, (B = 0x0 ∨ B = 0x40000000 ∨ B = 0x80000000) →
      ∀ t, mapFind? d.leaves B = some (.Subleaf t) →
        update_max_leaves d = none ∧
        (∀ L s v, set_subleaf d L s v = none) ∧
        (∀ L v, L ≠ B → set_leaf d L v = none)) ∧
    (∀ s q, (∀ r, mapFind? d.leaves 0x0 ≠ some (.Leaf r)) →
      set_subleaf d 0x0 s (some q) = none) := by
  constructor
  · intro B hB t ht
    refine ⟨update_fault_of_book_table hB ht, ?_, ?_⟩
    · intro L s v
      rcases v with _ | b
      · simp only [set_subleaf]
        rcases hf : mapFind? d.leaves L with _ | e
        · exact update_fault_of_book_table hB ht
        · rcases e with r | sl
          · rfl
          · by_cases hLB : L = B
            · subst hLB
              exact update_fault_of_book_table hB (mapFind?_insert_self _ _ _)
            · exact update_fault_of_book_table hB
                (by rw [mapFind?_insert_ne _ _ _ _ (Ne.symm hLB)]; exact ht)
      · simp only [set_subleaf]
        rcases hf : mapFind? d.leaves L with _ | e
        · have hLB : L ≠ B := by
            intro hh
            rw [hh, ht] at hf
            cases hf
          exact update_fault_of_book_table hB
            (by rw [mapFind?_insert_ne _ _ _ _ (Ne.symm hLB)]; exact ht)
        · rcases e with r | sl
          · rfl
          · by_cases hLB : L = B
            · subst hLB
              exact update_fault_of_book_table hB (mapFind?_insert_self _ _ _)
            · exact update_fault_of_book_table hB
                (by rw [mapFind?_insert_ne _ _ _ _ (Ne.symm hLB)]; exact ht)
    · intro L v hLB
      rcases v with _ | b
      · exact update_fault_of_book_table hB
          (by rw [show ((⟨mapErase d.leaves L⟩ : CpuIdDump)).leaves =
            mapErase d.leaves L from rfl,
            mapFind?_erase_ne _ _ _ (Ne.symm hLB)]; exact ht)
      · simp only [set_leaf]
        by_cases h1 : L = 0x00000001
        · rw [if_pos h1]
          rcases hf : mapFind? d.leaves 0x80000001 with _ | e
          · exact update_fault_of_book_table hB
              (by rw [mapFind?_insert_ne _ _ _ _ (Ne.symm hLB)]; exact ht)
          · rcases e with x0 | tx
            · have hBX : B ≠ 0x80000001 := by
                rcases hB with rfl | rfl | rfl <;> norm_num
              exact update_fault_of_book_table hB
                (by rw [mapFind?_insert_ne _ _ _ _ (Ne.symm hLB),
                  mapFind?_insert_ne _ _ _ _ hBX]; exact ht)
            · rfl
        · rw [if_neg h1]
          by_cases h2 : L = 0x80000001
          · rw [if_pos h2]
            rcases hf : mapFind? d.leaves 0x00000001 with _ | e
            · exact update_fault_of_book_table hB
                (by rw [mapFind?_insert_ne _ _ _ _ (Ne.symm hLB)]; exact ht)
            · rcases e with P | tp
              · exact update_fault_of_book_table hB
                  (by rw [mapFind?_insert_ne _ _ _ _ (Ne.symm hLB)]; exact ht)
              · rfl
          · rw [if_neg h2]
            exact update_fault_of_book_table hB
              (by rw [mapFind?_insert_ne _ _ _ _ (Ne.symm hLB)]; exact ht)
  · intro s q hno
    simp only [set_subleaf]
    rcases hf : mapFind? d.leaves 0x0 with _ | e
    · exact update_fault_of_book_table (Or.inl rfl) (mapFind?_insert_self _ _ _)
    · rcases e with r | sl
      · exact absurd hf (hno r)
      · exact update_fault_of_book_table (Or.inl rfl) (mapFind?_insert_self _ _ _)

/-- Witness for the amended C8 at concrete dumps. -/
theorem spec_synth_table_fault_witness :
    update_max_leaves (⟨[(0, .Subleaf [(0, ⟨1, 1, 1, 1⟩)])]⟩ : CpuIdDump) = none ∧
    set_subleaf (⟨[(0, .Subleaf [(0, ⟨1, 1, 1, 1⟩)])]⟩ : CpuIdDump) 3 0
      (some ⟨2, 2, 2, 2⟩) = none ∧
    set_leaf (⟨[(0, .Subleaf [(0, ⟨1, 1, 1, 1⟩)])]⟩ : CpuIdDump) 5
      (some ⟨2, 2, 2, 2⟩) = none ∧
    set_subleaf (⟨[]⟩ : CpuIdDump) 0 2 (some ⟨3, 3, 3, 3⟩) = none := by
  obtain ⟨hfault, hsub, hleaf⟩ :=
    (spec_synth_table_fault ⟨[(0, .Subleaf [(0, ⟨1, 1, 1, 1⟩)])]⟩).1 0 (Or.inl rfl)
      [(0, ⟨1, 1, 1, 1⟩)] (by decide)
  exact ⟨hfault, hsub 3 0 (some ⟨2, 2, 2, 2⟩), hleaf 5 (some ⟨2, 2, 2, 2⟩) (by decide),
    (spec_synth_table_fault ⟨[]⟩).2 2 ⟨3, 3, 3, 3⟩
      (fun r h => Option.noConfusion h)⟩

/-! ## Draining the store (claim C9) -/

theorem drainFrom_none_eq : ∀ (dump : List (Nat × LeafOrSubleaves)) (leaf : Nat),
    drainFrom ⟨dump, leaf, none⟩ =
      (match iterNext ⟨dump, leaf, none⟩ with
        | none => []
        | some (a, it') => a :: drainFrom it') := by
  intro dump
  induction dump with
  | nil => intro leaf; simp only [drainFrom, iterNext]
  | cons hd rest ih =>
    intro leaf
    obtain ⟨k, e⟩ := hd
    cases e with
    | Leaf q => simp only [drainFrom, iterNext]
    | Subleaf sl =>
      cases sl with
      | nil =>
        simp only [drainFrom, iterNext]
        exact ih k
      | cons p r =>
        obtain ⟨s, q⟩ := p
        simp only [drainFrom, iterNext]

/-- `drainFrom` agrees step-by-step with the source's `Iterator::next`
(`iterNext`): it collects exactly the items the iterator yields. -/
theorem drainFrom_eq_iterNext (it : CpuIdDumpIter) :
    drainFrom it = (match iterNext it with
      | none => []
      | some (a, it') => a :: drainFrom it') := by
  obtain ⟨dump, leaf, cur⟩ := it
  match cur with
  | none => exact drainFrom_none_eq dump leaf
  | some [] =>
    simp only [drainFrom, iterNext]
    exact drainFrom_none_eq dump leaf
  | some ((s, q) :: r) => simp only [drainFrom, iterNext]

theorem drainFrom_cur (sl : List (Nat × CpuIdResult)) :
    ∀ (dump : List (Nat × LeafOrSubleaves)) (leaf : Nat),
      drainFrom ⟨dump, leaf, some sl⟩ =
        sl.map (fun p => (leaf, some p.1, p.2)) ++ drainFrom ⟨dump, leaf, none⟩ := by
  induction sl with
  | nil => intro dump leaf; simp only [drainFrom, List.map_nil, List.nil_append]
  | cons p r ih =>
    intro dump leaf
    obtain ⟨s, q⟩ := p
    simp only [drainFrom, List.map_cons, List.cons_append]
    rw [ih]

theorem drainFrom_dump : ∀ (dump : List (Nat × LeafOrSubleaves)) (leaf : Nat),
    drainFrom ⟨dump, leaf, none⟩ = (dump.map entryTriples).flatten := by
  intro dump
  induction dump with
  | nil => intro leaf; simp [drainFrom]
  | cons hd rest ih =>
    intro leaf
    obtain ⟨k, e⟩ := hd
    cases e with
    | Leaf q =>
      simp only [drainFrom, List.map_cons, List.flatten_cons, entryTriples]
      rw [ih]
      simp
    | Subleaf sl =>
      simp only [drainFrom]
      rw [drainFrom_cur, ih]
      simp [entryTriples]

/-- Claim C9: draining a dump through its `IntoIterator` terminates and
yields, up to permutation (no order is guaranteed), exactly the store's
contents — one `(L, none, Q)` triple per scalar leaf and one
`(L, some S, Q)` triple per subleaf binding. -/
theorem spec_drain_complete (d : CpuIdDump) :
    List.Perm (drainFrom (intoIter d)) (dumpContents d) := by
  rw [show intoIter d = ⟨d.leaves, 0, none⟩ from rfl, drainFrom_dump]
  exact List.Perm.refl _

/-! ## Extended-topology sequence decoder (claims C7, C10) -/

theorem extTopoYield_run (reader : Nat → Nat → CpuIdResult) (n : Nat)
    (hvalid : ∀ k, k < n →
      ∃ tt, level_type (etOf (reader EAX_EXTENDED_TOPOLOGY_INFO k)) = some tt ∧
        tt ≠ .INVALID)
    (hterm : level_type (etOf (reader EAX_EXTENDED_TOPOLOGY_INFO n)) =
      some .INVALID) :
    ∀ (fuel j : Nat), j ≤ n → n - j < fuel →
      extTopoYield reader ⟨j⟩ fuel =
        some ((List.range' j (n - j)).map
          (fun k => etOf (reader EAX_EXTENDED_TOPOLOGY_INFO k))) := by
  intro fuel
  induction fuel with
  | zero => intro j hj hlt; omega
  | succ fuel ih =>
    intro j hj hlt
    by_cases hjn : j = n
    · subst hjn
      rw [extTopoYield]
      have hnx : extTopoNext reader ⟨j⟩ = some none := by
        simp only [extTopoNext]
        rw [hterm]
      rw [hnx]
      simp [Nat.sub_self]
    · have hjlt : j < n := by omega
      obtain ⟨tt, htt, httne⟩ := hvalid j hjlt
      rw [extTopoYield]
      have hnext : extTopoNext reader ⟨j⟩ =
          some (some (etOf (reader EAX_EXTENDED_TOPOLOGY_INFO j), ⟨j + 1⟩)) := by
        simp only [extTopoNext]
        rw [htt]
        cases tt with
        | INVALID => exact absurd rfl httne
        | SMT => rfl
        | CORE => rfl
      rw [hnext]
      have hih := ih (j + 1) (by omega) (by omega)
      have hnj : n - j = (n - (j + 1)) + 1 := by omega
      simp [hih, hnj, List.range'_succ]

/-- Claim C7: the extended-topology decoder queries subleaves `0, 1, 2, …`
in order and stops at the first fetched quad whose level-type field decodes
to the invalid sentinel, without yielding that terminating quad: when
levels below `n` decode to valid types and level `n` decodes to `INVALID`,
the iterator yields exactly the `n` quads of subleaves `0 … n-1`. -/
theorem spec_topology_termination (reader : Nat → Nat → CpuIdResult) (n : Nat)
    (hvalid : ∀ k, k < n →
      ∃ tt, level_type (etOf (reader EAX_EXTENDED_TOPOLOGY_INFO k)) = some tt ∧
        tt ≠ .INVALID)
    (hterm : level_type (etOf (reader EAX_EXTENDED_TOPOLOGY_INFO n)) =
      some .INVALID)
    (fuel : Nat) (hfuel : n < fuel) :
    extTopoYield reader ⟨0⟩ fuel =
      some ((List.range n).map
        (fun k => etOf (reader EAX_EXTENDED_TOPOLOGY_INFO k))) ∧
    ((List.range n).map
      (fun k => etOf (reader EAX_EXTENDED_TOPOLOGY_INFO k))).length = n := by
  constructor
  · have hrun := extTopoYield_run reader n hvalid hterm fuel 0 (Nat.zero_le n)
      (by omega)
    rw [hrun]
    rw [show List.range' 0 (n - 0) = List.range n from by
      rw [Nat.sub_zero]; exact (List.range_eq_range' n).symm]
  · simp

/-- Witness for C7: a snapshot store whose topology leaf holds subleaves
0, 1, 2 with subleaf 2 decoding to the invalid level type yields exactly 2
items. -/
theorem spec_topology_termination_witness :
    extTopoYield
      (fun l s => cpuid2 (⟨[(0xB, .Subleaf
        [(0, ⟨0, 0, 0x100, 0⟩), (1, ⟨0, 0, 0x200, 0⟩), (2, ⟨0, 0, 0, 0⟩)])]⟩ :
          CpuIdDump) l s) ⟨0⟩ 3 =
      some [etOf ⟨0, 0, 0x100, 0⟩, etOf ⟨0, 0, 0x200, 0⟩] := by
  have h := (spec_topology_termination
    (fun l s => cpuid2 (⟨[(0xB, .Subleaf
      [(0, ⟨0, 0, 0x100, 0⟩), (1, ⟨0, 0, 0x200, 0⟩), (2, ⟨0, 0, 0, 0⟩)])]⟩ :
        CpuIdDump) l s) 2
    (by
      intro k hk
      interval_cases k
      · exact ⟨.SMT, by decide, by decide⟩
      · exact ⟨.CORE, by decide, by decide⟩)
    (by decide) 3 (by norm_num)).1
  rw [h]
  rfl

/-- Claim C10: decoding the topology level type is partial — on any quad
whose ecx bits 8–15 decode to a value greater than 2, `level_type` (and
therefore the iterator's `next`, which calls it on every freshly fetched
quad) faults through the unreachable-code assertion instead of treating the
value as reserved or as a termination sentinel. -/
theorem spec_level_type_unreachable (res : CpuIdResult) (v : Nat)
    (hv : get_bits res.ecx 8 15 = some v) (h2 : 2 < v) :
    level_type (etOf res) = none ∧
    ∀ (reader : Nat → Nat → CpuIdResult) (it : ExtendedTopologyIter),
      reader EAX_EXTENDED_TOPOLOGY_INFO it.level = res →
      extTopoNext reader it = none := by
  have hlt : level_type (etOf res) = none := by
    rw [level_type, show (etOf res).ecx = res.ecx from rfl, hv]
    obtain ⟨w, rfl⟩ : ∃ w, v = w + 3 := ⟨v - 3, by omega⟩
    rfl
  refine ⟨hlt, ?_⟩
  intro reader it hr
  simp only [extTopoNext, hr, hlt]

/-- Witness for C10 at a quad with level-type field 3. -/
theorem spec_level_type_unreachable_witness :
    level_type (etOf ⟨0, 0, 0x300, 0⟩) = none ∧
    extTopoNext (fun _ _ => (⟨0, 0, 0x300, 0⟩ : CpuIdResult)) ⟨0⟩ = none := by
  have h := spec_level_type_unreachable ⟨0, 0, 0x300, 0⟩ 3 (by decide) (by norm_num)
  exact ⟨h.1, h.2 _ ⟨0⟩ rfl⟩
